import Mathlib

/-!
# Vishay VCNL3020 proximity sensor driver

A shallow embedding of `drivers/iio/proximity/vcnl3020.c` and of the register
map in `include/linux/iio/proximity/vcnl3020.h`.

The driver talks to the chip through the SMBus byte primitives and a mutex.
The chip and the bus are the environment: they are a parameter (`Bus`) whose
answers the driver cannot influence.  Every primitive call is recorded in an
event trace, so that statements about "which transactions were issued, in
which order" are statements about a list.

C integers: an `s32` is an `Int`; conversions to unsigned types are written
out with an explicit modulus.
-/

namespace Vcnl3020

/-! ## Register map and constants of `vcnl3020.h` -/

def VCNL3020_PROD_ID : Nat := 0x21

def VCNL_COMMAND : Nat := 0x80
def VCNL_PROD_REV : Nat := 0x81
def VCNL_PROXIMITY_RATE : Nat := 0x82
def VCNL_LED_CURRENT : Nat := 0x83
def VCNL_PS_RESULT_HI : Nat := 0x87
def VCNL_PS_RESULT_LO : Nat := 0x88
def VCNL_PS_ICR : Nat := 0x89
def ICR_THRES_EN : Nat := 0x02
def ICR_COUNT_EXCEED : Nat := 0x10
def VCNL_PS_LO_THR_HI : Nat := 0x8a
def VCNL_PS_LO_THR_LO : Nat := 0x8b
def VCNL_PS_HI_THR_HI : Nat := 0x8c
def VCNL_PS_HI_THR_LO : Nat := 0x8d
def VCNL_ISR : Nat := 0x8e
def INT_TH_HI : Nat := 0
def INT_TH_LOW : Nat := 1
def INT_PROX_READY : Nat := 3
def VCNL_PS_MOD_ADJ : Nat := 0x8f

/-- Modelled from the spec: the kernel macro `BIT(nr)` (`1UL << nr`) is not
among the sources; the spec names its results "bit5", "bit3", "bit1", "bit0",
that is the unsigned long with only bit `nr` set. -/
def BIT (nr : Nat) : Nat := (1 <<< nr) % 2 ^ 64

def VCNL_PS_RDY : Nat := BIT 5
def VCNL_PS_OD : Nat := BIT 3
def VCNL_PS_EN : Nat := BIT 1
def VCNL_PS_SELFTIMED_EN : Nat := BIT 0

/-- Modelled from the spec: the errno constants come from the kernel headers,
which are not among the sources.  `ENODEV` is the code of the spec's
`IdentityMismatch`. -/
def ENODEV : Int := 19

/-- Modelled from the spec: the errno constants come from the kernel headers,
which are not among the sources.  This one is the code of the spec's
`Timeout` ("data is not ready"). -/
def EIO : Int := 5

/-! ## C integer conversions -/

/-- The bits of an `s32` read as an unsigned 32 bit number. -/
def to_u32 (x : Int) : Nat := (x % 2 ^ 32).toNat

/-- An `s32` converted to `unsigned long` (sign extension to 64 bits). -/
def to_ulong (x : Int) : Nat := (x % 2 ^ 64).toNat

/-- The `s32` whose bits are the low 32 bits of `n`. -/
def of_u32 (n : Nat) : Int :=
  if n % 2 ^ 32 < 2 ^ 31 then ((n % 2 ^ 32 : Nat) : Int) else ((n % 2 ^ 32 : Nat) : Int) - 2 ^ 32

/-- The C expression `a & b` on two `int`s. -/
def s32_and (a b : Int) : Int := of_u32 (to_u32 a &&& to_u32 b)

/-- The C expression `a | b` on two `int`s. -/
def s32_or (a b : Int) : Int := of_u32 (to_u32 a ||| to_u32 b)

/-- The C expression `a << k` on an `int` whose result fits. -/
def s32_shl (a : Int) (k : Nat) : Int := of_u32 (to_u32 a <<< k)

/-! ## The environment: bus, chip, clock and mutex -/

/-- What the driver may observe of a call. -/
inductive Event where
  | lock : Event
  | unlock : Event
  | read (command : Nat) (res : Int) : Event
  | write (command : Nat) (value : Nat) (res : Int) : Event
  | sleep (msecs : Nat) : Event
  deriving DecidableEq, Repr

/-- The chip behind the i2c client: `read` and `write` answer with an `s32`
(negative: errno; a read otherwise answers the byte) and move the chip to its
next state, `msleep` lets time pass. -/
structure Bus (σ : Type) where
  read : σ → Nat → Int × σ
  write : σ → Nat → Nat → Int × σ
  msleep : σ → Nat → σ

/-- The state threaded through the driver: the chip and the events so far. -/
structure World (σ : Type) where
  dev : σ
  trace : List Event

/-- Modelled from the spec: `i2c_smbus_read_byte_data` belongs to the i2c core,
which is not among the sources; the spec's transport is
`read_register(addr: u8) -> Result<u8, BusError>`. -/
def i2c_smbus_read_byte_data {σ : Type} (B : Bus σ) (w : World σ) (command : Nat) :
    Int × World σ :=
  let r := B.read w.dev command
  (r.1, ⟨r.2, w.trace ++ [Event.read command r.1]⟩)

/-- Modelled from the spec: `i2c_smbus_write_byte_data` belongs to the i2c
core, which is not among the sources; the spec's transport is
`write_register(addr: u8, value: u8) -> Result<(), BusError>`, so the value
that reaches the wire is the argument truncated to 8 bits. -/
def i2c_smbus_write_byte_data {σ : Type} (B : Bus σ) (w : World σ) (command : Nat)
    (value : Nat) : Int × World σ :=
  let r := B.write w.dev command (value % 256)
  (r.1, ⟨r.2, w.trace ++ [Event.write command (value % 256) r.1]⟩)

def mutex_lock {σ : Type} (w : World σ) : World σ :=
  ⟨w.dev, w.trace ++ [Event.lock]⟩

def mutex_unlock {σ : Type} (w : World σ) : World σ :=
  ⟨w.dev, w.trace ++ [Event.unlock]⟩

def msleep {σ : Type} (B : Bus σ) (w : World σ) (msecs : Nat) : World σ :=
  ⟨B.msleep w.dev msecs, w.trace ++ [Event.sleep msecs]⟩

/-! ## Alarm read and clear -/

/-- The function `vcnl3020_intrusion`: the failure of the read is logged and
the function goes on to test the bit of whatever `isr` holds. -/
def vcnl3020_intrusion {σ : Type} (B : Bus σ) (w : World σ) : Bool × World σ :=
  let w1 := mutex_lock w
  let r := i2c_smbus_read_byte_data B w1 VCNL_ISR
  let isr := r.1
  let w2 := mutex_unlock r.2
  (decide (to_ulong isr &&& BIT INT_TH_LOW ≠ 0), w2)

/-- The function `vcnl3020_clear_interrupts`. -/
def vcnl3020_clear_interrupts {σ : Type} (B : Bus σ) (w : World σ) : Int × World σ :=
  let w1 := mutex_lock w
  let r := i2c_smbus_write_byte_data B w1 VCNL_ISR (INT_TH_HI ||| INT_TH_LOW ||| INT_PROX_READY)
  let w2 := mutex_unlock r.2
  (r.1, w2)

/-! ## On-demand measurement -/

/-- The state with which the poll loop of `vcnl3020_measure_proximity` is
left: `failed` is the `goto fail` inside the loop. -/
structure PollOut (σ : Type) where
  failed : Bool
  rc : Int
  tries : Int
  w : World σ

/-- The loop `while (tries--) { ... }`; the first argument is the value of
`tries` that the loop condition tests. -/
def poll_ready {σ : Type} (B : Bus σ) : Nat → Int → World σ → PollOut σ
  | 0, rc, w => ⟨false, rc, -1, w⟩
  | t + 1, _, w =>
    let r := i2c_smbus_read_byte_data B w VCNL_COMMAND
    if r.1 < 0 then ⟨true, r.1, (t : Int), r.2⟩
    else if to_ulong r.1 &&& VCNL_PS_RDY ≠ 0 then ⟨false, r.1, (t : Int), r.2⟩
    else poll_ready B t r.1 (msleep B r.2 20)

/-- What `vcnl3020_measure_proximity` hands back: the return value, the
content of `*val` and the world. -/
structure MeasureOut (σ : Type) where
  rc : Int
  val : Int
  w : World σ

/-- The label `fail:` of `vcnl3020_measure_proximity`. -/
def measure_fail {σ : Type} (rc : Int) (val : Int) (w : World σ) : MeasureOut σ :=
  ⟨rc, val, mutex_unlock w⟩

/-- The function `vcnl3020_measure_proximity`; `val` is what `*val` holds when
the function is entered. -/
def vcnl3020_measure_proximity {σ : Type} (B : Bus σ) (w : World σ) (val : Int) :
    MeasureOut σ :=
  let tries : Nat := 20
  let rc : Int := 0
  let w1 := mutex_lock w
  let r1 := i2c_smbus_read_byte_data B w1 VCNL_COMMAND
  let cmdreg := r1.1
  if cmdreg < 0 then measure_fail rc val r1.2 else
  let r2 := i2c_smbus_write_byte_data B r1.2 VCNL_COMMAND VCNL_PS_OD
  if r2.1 < 0 then measure_fail r2.1 val r2.2 else
  let p := poll_ready B tries r2.1 r2.2
  if p.failed then measure_fail p.rc val p.w else
  if p.tries < 0 then measure_fail (- EIO) val p.w else
  let r3 := i2c_smbus_read_byte_data B p.w VCNL_PS_RESULT_HI
  if r3.1 < 0 then measure_fail r3.1 val r3.2 else
  let val1 := s32_shl (s32_and r3.1 0xff) 8
  let r4 := i2c_smbus_read_byte_data B r3.2 VCNL_PS_RESULT_LO
  if r4.1 < 0 then measure_fail r4.1 val1 r4.2 else
  let val2 := s32_or val1 (s32_and r4.1 0xff)
  let r5 := i2c_smbus_write_byte_data B r4.2 VCNL_COMMAND (to_u32 cmdreg)
  if r5.1 < 0 then measure_fail r5.1 val2 r5.2 else
  ⟨0, val2, mutex_unlock r5.2⟩

/-! ## Initialisation -/

/-- The fields of `struct vcnl3020_data` that the driver writes; the client is
the `Bus`. -/
structure vcnl3020_data where
  rev : Int
  lock_initialised : Bool
  deriving DecidableEq, Repr

/-- One `device_property_read_u32`: its return value and the `u32` it stores. -/
structure PropRead where
  rc : Int
  param_val : Nat
  deriving DecidableEq, Repr

/-- The four firmware properties that `vcnl3020_init` asks for. -/
structure DeviceProps where
  proximity_rate : PropRead
  led_current : PropRead
  threshold : PropRead
  count_exceed : PropRead
  deriving DecidableEq, Repr

/-- What `vcnl3020_init` hands back. -/
structure InitOut (σ : Type) where
  rc : Int
  data : vcnl3020_data
  w : World σ

/-- The function `vcnl3020_init`. -/
def vcnl3020_init {σ : Type} (B : Bus σ) (props : DeviceProps) (data : vcnl3020_data)
    (w : World σ) : InitOut σ :=
  if props.proximity_rate.rc ≠ 0 then ⟨props.proximity_rate.rc, data, w⟩ else
  let proximity_rate := props.proximity_rate.param_val % 2 ^ 32
  if props.led_current.rc ≠ 0 then ⟨props.led_current.rc, data, w⟩ else
  let led_current := props.led_current.param_val % 2 ^ 32
  if props.threshold.rc ≠ 0 then ⟨props.threshold.rc, data, w⟩ else
  let threshold := props.threshold.param_val % 2 ^ 32
  if props.count_exceed.rc ≠ 0 then ⟨props.count_exceed.rc, data, w⟩ else
  let count_exceed := props.count_exceed.param_val % 2 ^ 32
  let r0 := i2c_smbus_read_byte_data B w VCNL_PROD_REV
  if r0.1 < 0 then ⟨r0.1, data, r0.2⟩ else
  if r0.1 = (VCNL3020_PROD_ID : Int) then
    let data1 : vcnl3020_data := ⟨s32_and r0.1 0xff, true⟩
    let r1 := i2c_smbus_write_byte_data B r0.2 VCNL_PROXIMITY_RATE proximity_rate
    if r1.1 < 0 then ⟨r1.1, data1, r1.2⟩ else
    let r2 := i2c_smbus_write_byte_data B r1.2 VCNL_LED_CURRENT led_current
    if r2.1 < 0 then ⟨r2.1, data1, r2.2⟩ else
    let r3 := i2c_smbus_write_byte_data B r2.2 VCNL_PS_LO_THR_LO (threshold &&& 0xFF)
    if r3.1 < 0 then ⟨r3.1, data1, r3.2⟩ else
    let r4 := i2c_smbus_write_byte_data B r3.2 VCNL_PS_LO_THR_HI ((threshold >>> 8) &&& 0xFF)
    if r4.1 < 0 then ⟨r4.1, data1, r4.2⟩ else
    let r5 := i2c_smbus_write_byte_data B r4.2 VCNL_PS_ICR
      (((count_exceed <<< ICR_COUNT_EXCEED) % 2 ^ 32) ||| ICR_THRES_EN)
    if r5.1 < 0 then ⟨r5.1, data1, r5.2⟩ else
    let r6 := i2c_smbus_write_byte_data B r5.2 VCNL_COMMAND
      ((VCNL_PS_EN ||| VCNL_PS_SELFTIMED_EN) &&& (VCNL_PS_OD ^^^ 0xff))
    if r6.1 < 0 then ⟨r6.1, data1, r6.2⟩ else
    let r7 := i2c_smbus_read_byte_data B r6.2 VCNL_COMMAND
    ⟨0, data1, r7.2⟩
  else ⟨- ENODEV, data, r0.2⟩

/-! ## Scripted environments and trace projections -/

/-- The environment that answers the `n`-th transaction of a call with
`script n`, whatever the register; its state is the number of transactions
answered so far. -/
def scripted (script : Nat → Int) : Bus Nat where
  read := fun n _ => (script n, n + 1)
  write := fun n _ _ => (script n, n + 1)
  msleep := fun n _ => n

/-- A script given by its first answers, every later transaction answering
`dflt`. -/
def scriptOf (answers : List Int) (dflt : Int) : Nat → Int :=
  fun n => answers.getD n dflt

/-- The start of a call: a chip state and no event yet. -/
def World.init {σ : Type} (s : σ) : World σ := ⟨s, []⟩

/-- The register writes of a trace, in order: register and byte. -/
def writesOf : List Event → List (Nat × Nat)
  | [] => []
  | Event.write c v _ :: es => (c, v) :: writesOf es
  | _ :: es => writesOf es

/-- The bus transactions (reads and writes) of a trace, in order. -/
def transactionsOf : List Event → List Event
  | [] => []
  | Event.read c r :: es => Event.read c r :: transactionsOf es
  | Event.write c v r :: es => Event.write c v r :: transactionsOf es
  | _ :: es => transactionsOf es

/-- The events of `k` polls of the COMMAND register that did not see the ready
bit, each followed by its sleep, when the first of them is transaction `n` of
the script. -/
def pollEvents (script : Nat → Int) : Nat → Nat → List Event
  | _, 0 => []
  | n, k + 1 => Event.read VCNL_COMMAND (script n) :: Event.sleep 20 :: pollEvents script (n + 1) k

/-- The durations of the sleeps of a trace, in order. -/
def sleepsOf : List Event → List Nat
  | [] => []
  | Event.sleep m :: es => m :: sleepsOf es
  | _ :: es => sleepsOf es

/-- The registers of the reads of a trace, in order. -/
def readsOf : List Event → List Nat
  | [] => []
  | Event.read c _ :: es => c :: readsOf es
  | _ :: es => readsOf es

/-- An event of the poll loop: a read of COMMAND or a sleep of 20 ms. -/
def isPoll (e : Event) : Prop := (∃ r, e = Event.read VCNL_COMMAND r) ∨ e = Event.sleep 20

/-- The script whose transaction `k + 1` (poll `k` of a measurement) answers
with the ready bit and whose other transactions answer 0. -/
def readyAtPoll (k : Nat) : Nat → Int :=
  fun i => if i = k + 1 then 0x20 else 0

/-- The answers to the register writes of a trace, in order. -/
def writeResultsOf : List Event → List Int
  | [] => []
  | Event.write _ _ r :: es => r :: writeResultsOf es
  | _ :: es => writeResultsOf es

/-- The order in which `vcnl3020_init` writes its registers. -/
def initWriteOrder : List Nat :=
  [VCNL_PROXIMITY_RATE, VCNL_LED_CURRENT, VCNL_PS_LO_THR_LO, VCNL_PS_LO_THR_HI, VCNL_PS_ICR,
    VCNL_COMMAND]

/-- Every `device_property_read_u32` of `vcnl3020_init` returned 0. -/
def propsOk (props : DeviceProps) : Prop :=
  props.proximity_rate.rc = 0 ∧ props.led_current.rc = 0 ∧ props.threshold.rc = 0
    ∧ props.count_exceed.rc = 0

/-- The six writes of `vcnl3020_init` as register and byte on the wire, each
argument as the source computes it, truncated to the `u8` parameter. -/
def initWrites (props : DeviceProps) : List (Nat × Nat) :=
  [(VCNL_PROXIMITY_RATE, props.proximity_rate.param_val % 2 ^ 32 % 256),
   (VCNL_LED_CURRENT, props.led_current.param_val % 2 ^ 32 % 256),
   (VCNL_PS_LO_THR_LO, (props.threshold.param_val % 2 ^ 32 &&& 0xFF) % 256),
   (VCNL_PS_LO_THR_HI, ((props.threshold.param_val % 2 ^ 32) >>> 8 &&& 0xFF) % 256),
   (VCNL_PS_ICR,
     (((props.count_exceed.param_val % 2 ^ 32) <<< ICR_COUNT_EXCEED) % 2 ^ 32 ||| ICR_THRES_EN) % 256),
   (VCNL_COMMAND, ((VCNL_PS_EN ||| VCNL_PS_SELFTIMED_EN) &&& (VCNL_PS_OD ^^^ 0xff)) % 256)]

/-- The write events of the writes `ws` answered by `rs`, as far as both go. -/
def writeEvents : List (Nat × Nat) → List Int → List Event
  | (c, v) :: ws, r :: rs => Event.write c v r :: writeEvents ws rs
  | _, _ => []

/-- The firmware node that provides the four properties with these values. -/
def config (proximity_rate led_current threshold count_exceed : Nat) : DeviceProps :=
  ⟨⟨0, proximity_rate⟩, ⟨0, led_current⟩, ⟨0, threshold⟩, ⟨0, count_exceed⟩⟩

/-- A measurement in which every transaction succeeds: COMMAND holds 3, the
third poll shows the ready bit, the result bytes are 0x12 and 0x34. -/
def measureScript : Nat → Int :=
  scriptOf [3, 0, 0, 0, 0x20, 0x12, 0x34, 0] 0

/-- An initialisation whose third register write fails with `-EIO`. -/
def initScriptThirdWriteFails : Nat → Int :=
  scriptOf [0x21, 0, 0, -5] 0

/-- Modelled from the spec: the errno constants come from the kernel headers,
which are not among the sources.  `EINVAL` is the code of the spec's
`InvalidRequest`. -/
def EINVAL : Int := 22

/-- The conversion of a `size_t` or `unsigned long` to the `ssize_t` that a
sysfs store function returns. -/
def to_ssize (n : Nat) : Int :=
  if n % 2 ^ 64 < 2 ^ 63 then ((n % 2 ^ 64 : Nat) : Int) else ((n % 2 ^ 64 : Nat) : Int) - 2 ^ 64

/-- The function `vcnl3020_hwmon_store` of `vcnl3020-hwmon.c`.  The parser
`kstrtoul` belongs to the kernel library and is a parameter: from the buffer,
the base and what `val` holds it gives its return value and what `val` holds
afterwards. -/
def vcnl3020_hwmon_store {σ β : Type} (kstrtoul : β → Nat → Nat → Int × Nat) (B : Bus σ)
    (w : World σ) (buf : β) (size : Nat) : Int × World σ :=
  let data : Nat := 0
  let val : Nat := 0
  let p := kstrtoul buf 10 val
  if p.1 < 0 then (- EINVAL, w) else
  let val1 := p.2
  if val1 ≠ 0 then (- EINVAL, w) else
  let r := vcnl3020_clear_interrupts B w
  if r.1 < 0 then (to_ssize data, r.2) else
  (to_ssize size, r.2)

/-- A parser for buffers given by what their text denotes: `some v` is the
decimal text of `v`, `none` is text that is no number. -/
def kstrtoulOf : Option Nat → Nat → Nat → Int × Nat
  | some v, _, _ => (0, v)
  | none, _, res => (- EINVAL, res)

/-- The register file `s` after `v` was stored at register `c`. -/
def setReg (s : Nat → Nat) (c v : Nat) : Nat → Nat :=
  fun c1 => if c1 = c then v else s c1

/-- The chip as a register file: a read answers the byte stored at the
register, a write is accepted and stored, time changes nothing. -/
def regfile : Bus (Nat → Nat) where
  read := fun s c => ((s c : Int), s)
  write := fun s c v => (0, setReg s c v)
  msleep := fun s _ => s

/-- No event of the list takes or releases the mutex. -/
def lockFree (body : List Event) : Prop :=
  ∀ e ∈ body, e ≠ Event.lock ∧ e ≠ Event.unlock

/-- The event is a bus transaction that the transport answered with a
negative code. -/
def failedTransaction : Event → Bool
  | Event.read _ r => decide (r < 0)
  | Event.write _ _ r => decide (r < 0)
  | _ => false

/-- An initialisation in which the identity read and the six writes succeed
and the final read-back of COMMAND fails with `-EIO`. -/
def initScriptReadBackFails : Nat → Int :=
  scriptOf [0x21, 0, 0, 0, 0, 0, 0, -5] 0

/-- The two callers of the concurrent scenario: one runs
`vcnl3020_measure_proximity`, the other `vcnl3020_clear_interrupts`, on the
same handle. -/
inductive Caller where
  | measure : Caller
  | clear : Caller
  deriving DecidableEq, Repr

/-- The events of caller `c` in a run of both callers, in order. -/
def eventsOf (c : Caller) : List (Caller × Event) → List Event
  | [] => []
  | (c1, e) :: xs => if c1 = c then e :: eventsOf c xs else eventsOf c xs

/-- The events of one call, marked with their caller. -/
def callBlock (c : Caller) (t : List Event) : List (Caller × Event) :=
  t.map (fun e => (c, e))

/-- Modelled from the spec: `mutex_lock` and `mutex_unlock` belong to the
kernel's locking code, which is not among the sources.  The spec's lock is "a
mutual-exclusion primitive" that "enforces at-most-one-in-flight": a caller
takes the mutex only when nobody holds it (until then it waits and produces
no event) and only the holder releases it.  The function checks a run of both
callers against this rule, starting from the given holder. -/
def mutexAllows : Option Caller → List (Caller × Event) → Bool
  | _, [] => true
  | holder, (c, Event.lock) :: xs =>
    if holder = none then mutexAllows (some c) xs else false
  | holder, (c, Event.unlock) :: xs =>
    if holder = some c then mutexAllows none xs else false
  | holder, _ :: xs => mutexAllows holder xs

/-- A run in which the clear call gets the mutex first and the measurement
(COMMAND holds 3, ready at the third poll, result 0x1234) follows. -/
def clearThenMeasure : List (Caller × Event) :=
  callBlock Caller.clear (vcnl3020_clear_interrupts (scripted (fun _ => 0)) (World.init 0)).2.trace
    ++ callBlock Caller.measure
        (vcnl3020_measure_proximity (scripted measureScript) (World.init 0) 77).w.trace

/-! ## Arithmetic of the C conversions -/

theorem to_ulong_natCast (n : Nat) (h : n < 2 ^ 64) : to_ulong (n : Int) = n := by
  unfold to_ulong
  have h1 : ((n : Int) % 2 ^ 64) = (n : Int) := Int.emod_eq_of_lt (by omega) (by exact_mod_cast h)
  rw [h1]; simp

theorem to_u32_natCast (n : Nat) (h : n < 2 ^ 32) : to_u32 (n : Int) = n := by
  unfold to_u32
  have h1 : ((n : Int) % 2 ^ 32) = (n : Int) := Int.emod_eq_of_lt (by omega) (by exact_mod_cast h)
  rw [h1]; simp

theorem and_bit_ne_zero_iff (n i : Nat) (hi : i < 64) : n &&& BIT i ≠ 0 ↔ n.testBit i = true := by
  have hB : BIT i = 2 ^ i := by
    unfold BIT
    rw [Nat.shiftLeft_eq, Nat.one_mul]
    exact Nat.mod_eq_of_lt (Nat.pow_lt_pow_right (by norm_num) hi)
  rw [hB]
  constructor
  · intro h
    obtain ⟨j, hj⟩ := Nat.ne_zero_implies_bit_true h
    rw [Nat.testBit_and, Nat.testBit_two_pow] at hj
    simp only [Bool.and_eq_true, decide_eq_true_eq] at hj
    rw [hj.2]; exact hj.1
  · intro h h0
    have : (n &&& 2 ^ i).testBit i = true := by
      rw [Nat.testBit_and, h, Nat.testBit_two_pow_self]; rfl
    rw [h0] at this
    simp at this

theorem to_ulong_of_nonneg (x : Int) (h : 0 ≤ x) : to_ulong x = x.toNat % 2 ^ 64 := by
  obtain ⟨n, rfl⟩ := Int.eq_ofNat_of_zero_le h
  unfold to_ulong
  have : ((n : Int) % 2 ^ 64) = ((n % 2 ^ 64 : Nat) : Int) := by push_cast; rfl
  rw [this]; exact Int.toNat_natCast _

theorem ready_iff (x : Int) (h : 0 ≤ x) :
    to_ulong x &&& VCNL_PS_RDY ≠ 0 ↔ x.toNat.testBit 5 = true := by
  rw [to_ulong_of_nonneg x h]
  unfold VCNL_PS_RDY
  rw [and_bit_ne_zero_iff _ 5 (by norm_num), Nat.testBit_mod_two_pow]
  simp

theorem poll_scripted_exhaust (script : Nat → Int) (hok : ∀ i, 0 ≤ script i) :
    ∀ (t n : Nat) (rc : Int) (tr : List Event),
      (∀ j, j < t → ¬ (script (n + j)).toNat.testBit 5 = true) →
      (poll_ready (scripted script) t rc ⟨n, tr⟩).failed = false
      ∧ (poll_ready (scripted script) t rc ⟨n, tr⟩).tries = -1
      ∧ (poll_ready (scripted script) t rc ⟨n, tr⟩).w = ⟨n + t, tr ++ pollEvents script n t⟩ := by
  intro t
  induction t with
  | zero => intro n rc tr _; simp [poll_ready, pollEvents]
  | succ t ih =>
    intro n rc tr h
    have h0 : ¬ (script n).toNat.testBit 5 = true := by simpa using h 0 (by omega)
    have hr : ¬ (to_ulong (script n) &&& VCNL_PS_RDY ≠ 0) := by
      rw [ready_iff _ (hok n)]; exact h0
    have hn : ¬ script n < 0 := not_lt.mpr (hok n)
    have ih1 := ih (n + 1) (script n) (tr ++ [Event.read VCNL_COMMAND (script n)] ++ [Event.sleep 20])
      (fun j hj => by have := h (j + 1) (by omega); rwa [show n + (j + 1) = n + 1 + j by omega] at this)
    simp only [poll_ready, i2c_smbus_read_byte_data, scripted, msleep, hn, hr, if_false]
    simp only [scripted] at ih1
    rw [show n + (t + 1) = n + 1 + t by omega]
    simpa [pollEvents] using ih1

theorem poll_scripted_found (script : Nat → Int) (hok : ∀ i, 0 ≤ script i) :
    ∀ (k t n : Nat) (rc : Int) (tr : List Event), k < t →
      (∀ j, j < k → ¬ (script (n + j)).toNat.testBit 5 = true) →
      (script (n + k)).toNat.testBit 5 = true →
      poll_ready (scripted script) t rc ⟨n, tr⟩
        = ⟨false, script (n + k), ((t - 1 - k : Nat) : Int),
            ⟨n + k + 1, tr ++ pollEvents script n k ++ [Event.read VCNL_COMMAND (script (n + k))]⟩⟩ := by
  intro k
  induction k with
  | zero =>
    intro t n rc tr ht _ hk
    obtain ⟨t, rfl⟩ : ∃ t', t = t' + 1 := ⟨t - 1, by omega⟩
    have hr : to_ulong (script n) &&& VCNL_PS_RDY ≠ 0 := by
      rw [ready_iff _ (hok n)]; simpa using hk
    have hn : ¬ script n < 0 := not_lt.mpr (hok n)
    simp only [poll_ready, i2c_smbus_read_byte_data, scripted, hn, if_false]
    rw [if_pos hr]
    simp [pollEvents]
  | succ k ih =>
    intro t n rc tr ht h hk
    obtain ⟨t, rfl⟩ : ∃ t', t = t' + 1 := ⟨t - 1, by omega⟩
    have h0 : ¬ (script n).toNat.testBit 5 = true := by simpa using h 0 (by omega)
    have hr : ¬ (to_ulong (script n) &&& VCNL_PS_RDY ≠ 0) := by
      rw [ready_iff _ (hok n)]; exact h0
    have hn : ¬ script n < 0 := not_lt.mpr (hok n)
    have ih1 := ih t (n + 1) (script n) (tr ++ [Event.read VCNL_COMMAND (script n)] ++ [Event.sleep 20])
      (by omega)
      (fun j hj => by have := h (j + 1) (by omega); rwa [show n + (j + 1) = n + 1 + j by omega] at this)
      (by rwa [show n + (k + 1) = n + 1 + k by omega] at hk)
    simp only [poll_ready, i2c_smbus_read_byte_data, scripted, msleep, hn, hr, if_false]
    simp only [scripted] at ih1
    rw [ih1]
    simp [pollEvents]
    have e : n + 1 + k = n + (k + 1) := by omega
    rw [e]
    exact ⟨rfl, by omega, rfl, rfl⟩

/-! ## Alarm read and clear -/

/-- C1: for every chip state, `vcnl3020_clear_interrupts` makes one bus
transaction, a write to ISR (0x8e), between taking and releasing the lock;
the byte written is 0x03 (`INT_TH_HI | INT_TH_LOW | INT_PROX_READY` = 0 | 1 | 3,
bit numbers ORed without `BIT`), not the 0x0B of bits 0, 1 and 3. -/
theorem clear_interrupts_writes_0x03 {σ : Type} (B : Bus σ) (s : σ) :
    (vcnl3020_clear_interrupts B (World.init s)).2.trace
      = [Event.lock, Event.write 0x8e 0x03 (B.write s 0x8e 0x03).1, Event.unlock] := by
  rfl

/-- C2: when the read of ISR fails with `-EIO` (-5), `vcnl3020_intrusion`
returns true: bit 1 of the two's complement of -5 is set. -/
theorem intrusion_true_on_failed_read :
    (vcnl3020_intrusion (scripted (fun _ => - EIO)) (World.init 0)).1 = true
    ∧ (vcnl3020_intrusion (scripted (fun _ => - EIO)) (World.init 0)).2.trace
        = [Event.lock, Event.read 0x8e (-5), Event.unlock] := by
  decide

/-- C3: when the read of ISR answers the byte `v` (0..255),
`vcnl3020_intrusion` returns true exactly when bit 1 of `v` is set. -/
theorem intrusion_iff_bit1 {σ : Type} (B : Bus σ) (s : σ) (v : Nat) (hv : v < 256)
    (hread : (B.read s VCNL_ISR).1 = (v : Int)) :
    (vcnl3020_intrusion B (World.init s)).1 = true ↔ v.testBit 1 = true := by
  have h1 : (vcnl3020_intrusion B (World.init s)).1
      = decide (to_ulong (B.read s VCNL_ISR).1 &&& BIT INT_TH_LOW ≠ 0) := rfl
  rw [h1, hread, to_ulong_natCast v (by omega), decide_eq_true_iff]
  exact and_bit_ne_zero_iff v 1 (by norm_num)

/-- Witness of C3: the byte 0x0a has bit 1 set and the function returns true. -/
theorem intrusion_iff_bit1_witness :
    (0x0a : Nat) < 256
    ∧ ((scripted (fun _ => 0x0a)).read 0 VCNL_ISR).1 = ((0x0a : Nat) : Int)
    ∧ (vcnl3020_intrusion (scripted (fun _ => 0x0a)) (World.init 0)).1 = true :=
  ⟨by decide, by decide,
    (intrusion_iff_bit1 (scripted (fun _ => 0x0a)) 0 0x0a (by decide) (by decide)).2 (by decide)⟩

theorem sleepsOf_append (a b : List Event) : sleepsOf (a ++ b) = sleepsOf a ++ sleepsOf b := by
  induction a with
  | nil => rfl
  | cons e es ih => cases e <;> simp [sleepsOf, ih]

theorem readsOf_append (a b : List Event) : readsOf (a ++ b) = readsOf a ++ readsOf b := by
  induction a with
  | nil => rfl
  | cons e es ih => cases e <;> simp [readsOf, ih]

theorem replicate_append_cons (a : Nat) (k : Nat) (l : List Nat) :
    List.replicate k a ++ a :: l = a :: (List.replicate k a ++ l) := by
  induction k with
  | zero => rfl
  | succ k ih => simp [List.replicate_succ, ih]

theorem sleepsOf_pollEvents (script : Nat → Int) (k : Nat) :
    ∀ n, sleepsOf (pollEvents script n k) = List.replicate k 20 := by
  induction k with
  | zero => intro n; rfl
  | succ k ih => intro n; simp [pollEvents, sleepsOf, ih, List.replicate_succ]

theorem readsOf_pollEvents (script : Nat → Int) (k : Nat) :
    ∀ n, readsOf (pollEvents script n k) = List.replicate k VCNL_COMMAND := by
  induction k with
  | zero => intro n; rfl
  | succ k ih => intro n; simp [pollEvents, readsOf, ih, List.replicate_succ]

theorem measure_scripted_found (script : Nat → Int) (val : Int) (hok : ∀ i, 0 ≤ script i)
    (k : Nat) (hk1 : 1 ≤ k) (hk20 : k ≤ 20)
    (hready : (script (k + 1)).toNat.testBit 5 = true)
    (hfirst : ∀ j, 1 ≤ j → j < k → ¬ (script (j + 1)).toNat.testBit 5 = true) :
    vcnl3020_measure_proximity (scripted script) (World.init 0) val
      = ⟨0, s32_or (s32_shl (s32_and (script (k + 2)) 0xff) 8) (s32_and (script (k + 3)) 0xff),
          ⟨k + 5,
            [Event.lock, Event.read VCNL_COMMAND (script 0), Event.write VCNL_COMMAND 8 (script 1)]
              ++ pollEvents script 2 (k - 1)
              ++ [Event.read VCNL_COMMAND (script (k + 1)),
                  Event.read VCNL_PS_RESULT_HI (script (k + 2)),
                  Event.read VCNL_PS_RESULT_LO (script (k + 3)),
                  Event.write VCNL_COMMAND (to_u32 (script 0) % 256) (script (k + 4)),
                  Event.unlock]⟩⟩ := by
  obtain ⟨k, rfl⟩ : ∃ k', k = k' + 1 := ⟨k - 1, by omega⟩
  have hp := fun rc tr => poll_scripted_found script hok k 20 2 rc tr (by omega)
    (fun j hj => by
      have := hfirst (j + 1) (by omega) (by omega)
      rwa [show j + 1 + 1 = 2 + j by omega] at this)
    (by rwa [show k + 1 + 1 = 2 + k by omega] at hready)
  have hn : ∀ i, ¬ script i < 0 := fun i => not_lt.mpr (hok i)
  simp only [scripted] at hp
  simp only [vcnl3020_measure_proximity, World.init, mutex_lock, mutex_unlock,
    i2c_smbus_read_byte_data, i2c_smbus_write_byte_data, scripted, hn, if_false, hp]
  have e1 : (20 : Nat) - 1 - k = 19 - k := by omega
  have hneg : ¬ (((20 - 1 - k : Nat) : Int) < 0) := by omega
  simp only [hneg, if_false, Bool.false_eq_true]
  simp [show 2 + k + 1 = k + 1 + 2 by omega, show 2 + k = k + 1 + 1 by omega]
  rfl


theorem measure_scripted_timeout (script : Nat → Int) (val : Int) (hok : ∀ i, 0 ≤ script i)
    (hnever : ∀ j, 1 ≤ j → j ≤ 20 → ¬ (script (j + 1)).toNat.testBit 5 = true) :
    vcnl3020_measure_proximity (scripted script) (World.init 0) val
      = ⟨- EIO, val,
          ⟨22,
            [Event.lock, Event.read VCNL_COMMAND (script 0), Event.write VCNL_COMMAND 8 (script 1)]
              ++ pollEvents script 2 20 ++ [Event.unlock]⟩⟩ := by
  have hp := fun rc tr => poll_scripted_exhaust script hok 20 2 rc tr
    (fun j hj => by
      have := hnever (j + 1) (by omega) (by omega)
      rwa [show j + 1 + 1 = 2 + j by omega] at this)
  have hn : ∀ i, ¬ script i < 0 := fun i => not_lt.mpr (hok i)
  simp only [scripted] at hp
  simp only [vcnl3020_measure_proximity, World.init, mutex_lock, mutex_unlock, measure_fail,
    i2c_smbus_read_byte_data, i2c_smbus_write_byte_data, scripted, hn, if_false, hp]
  simp
  rfl

/-- C4: on a bus whose every transaction succeeds, the measurement ends with
the timeout code exactly when none of the polls 1..20 of the COMMAND register
shows the ready bit (bit 5); when poll `k` (1 ≤ k ≤ 20) is the first that
shows it, the call returns 0 after the save read, `k` polls and the two result
reads, with `k - 1` sleeps of 20 ms and no poll after the `k`-th; a timeout
has made exactly 20 polls, never a 21st. -/
theorem measure_timeout_iff_never_ready (script : Nat → Int) (val : Int)
    (hok : ∀ i, 0 ≤ script i) :
    ((vcnl3020_measure_proximity (scripted script) (World.init 0) val).rc = - EIO
        ↔ ∀ j, 1 ≤ j → j ≤ 20 → ¬ (script (j + 1)).toNat.testBit 5 = true)
    ∧ (∀ k, 1 ≤ k → k ≤ 20 → (script (k + 1)).toNat.testBit 5 = true →
        (∀ j, 1 ≤ j → j < k → ¬ (script (j + 1)).toNat.testBit 5 = true) →
        (vcnl3020_measure_proximity (scripted script) (World.init 0) val).rc = 0
        ∧ (vcnl3020_measure_proximity (scripted script) (World.init 0) val).w.trace
            = [Event.lock, Event.read VCNL_COMMAND (script 0),
                Event.write VCNL_COMMAND 8 (script 1)]
              ++ pollEvents script 2 (k - 1)
              ++ [Event.read VCNL_COMMAND (script (k + 1)),
                  Event.read VCNL_PS_RESULT_HI (script (k + 2)),
                  Event.read VCNL_PS_RESULT_LO (script (k + 3)),
                  Event.write VCNL_COMMAND (to_u32 (script 0) % 256) (script (k + 4)),
                  Event.unlock]
        ∧ readsOf (vcnl3020_measure_proximity (scripted script) (World.init 0) val).w.trace
            = VCNL_COMMAND :: List.replicate k VCNL_COMMAND
                ++ [VCNL_PS_RESULT_HI, VCNL_PS_RESULT_LO]
        ∧ sleepsOf (vcnl3020_measure_proximity (scripted script) (World.init 0) val).w.trace
            = List.replicate (k - 1) 20)
    ∧ ((∀ j, 1 ≤ j → j ≤ 20 → ¬ (script (j + 1)).toNat.testBit 5 = true) →
        readsOf (vcnl3020_measure_proximity (scripted script) (World.init 0) val).w.trace
            = VCNL_COMMAND :: List.replicate 20 VCNL_COMMAND
        ∧ sleepsOf (vcnl3020_measure_proximity (scripted script) (World.init 0) val).w.trace
            = List.replicate 20 20) := by
  have hfound : ∀ k, 1 ≤ k → k ≤ 20 → (script (k + 1)).toNat.testBit 5 = true →
      (∀ j, 1 ≤ j → j < k → ¬ (script (j + 1)).toNat.testBit 5 = true) →
      (vcnl3020_measure_proximity (scripted script) (World.init 0) val).rc = 0 := by
    intro k h1 h20 hr hf
    rw [measure_scripted_found script val hok k h1 h20 hr hf]
  refine ⟨⟨?_, ?_⟩, ?_, ?_⟩
  · intro hrc
    by_contra hex
    push_neg at hex
    have hex2 : ∃ j, 1 ≤ j ∧ j ≤ 20 ∧ (script (j + 1)).toNat.testBit 5 = true := hex
    classical
    have hmin := fun (m : Nat) (h : m < Nat.find hex2) => Nat.find_min hex2 h
    obtain ⟨h1, h20, hr⟩ := Nat.find_spec hex2
    have h0 := hfound (Nat.find hex2) h1 h20 hr
      (fun j hj1 hjk hjr => hmin j hjk ⟨hj1, by omega, hjr⟩)
    rw [h0] at hrc
    revert hrc
    decide
  · intro hnever
    rw [measure_scripted_timeout script val hok hnever]
  · intro k h1 h20 hr hf
    obtain ⟨k, rfl⟩ : ∃ k', k = k' + 1 := ⟨k - 1, by omega⟩
    rw [measure_scripted_found script val hok (k + 1) h1 h20 hr hf]
    refine ⟨rfl, rfl, ?_, ?_⟩
    · simp [readsOf_append, readsOf, readsOf_pollEvents, List.replicate_succ]
      exact replicate_append_cons _ _ _
    · simp [sleepsOf_append, sleepsOf, sleepsOf_pollEvents]
  · intro hnever
    rw [measure_scripted_timeout script val hok hnever]
    constructor
    · simp [readsOf_append, readsOf, readsOf_pollEvents]
    · simp [sleepsOf_append, sleepsOf, sleepsOf_pollEvents]


theorem poll_ready_trace {σ : Type} (B : Bus σ) :
    ∀ (t : Nat) (rc : Int) (w : World σ),
      ∃ pe, (poll_ready B t rc w).w.trace = w.trace ++ pe ∧ ∀ e ∈ pe, isPoll e := by
  intro t
  induction t with
  | zero => intro rc w; exact ⟨[], by simp [poll_ready], by simp⟩
  | succ t ih =>
    intro rc w
    simp only [poll_ready]
    split_ifs with h1 h2
    · exact ⟨[Event.read VCNL_COMMAND (B.read w.dev VCNL_COMMAND).1],
        by simp [i2c_smbus_read_byte_data], by simp [isPoll]⟩
    · exact ⟨[Event.read VCNL_COMMAND (B.read w.dev VCNL_COMMAND).1],
        by simp [i2c_smbus_read_byte_data], by simp [isPoll]⟩
    · obtain ⟨pe, hpe, hall⟩ := ih (i2c_smbus_read_byte_data B w VCNL_COMMAND).1
        (msleep B (i2c_smbus_read_byte_data B w VCNL_COMMAND).2 20)
      refine ⟨Event.read VCNL_COMMAND (B.read w.dev VCNL_COMMAND).1 :: Event.sleep 20 :: pe, ?_, ?_⟩
      · rw [hpe]; simp [i2c_smbus_read_byte_data, msleep]
      · intro e he
        simp only [List.mem_cons] at he
        rcases he with rfl | rfl | he
        · exact Or.inl ⟨_, rfl⟩
        · exact Or.inr rfl
        · exact hall e he

theorem poll_ready_failed_rc {σ : Type} (B : Bus σ) :
    ∀ (t : Nat) (rc : Int) (w : World σ),
      (poll_ready B t rc w).failed = true → (poll_ready B t rc w).rc < 0 := by
  intro t
  induction t with
  | zero => intro rc w h; simp [poll_ready] at h
  | succ t ih =>
    intro rc w
    simp only [poll_ready]
    split_ifs with h1 h2
    · intro _; exact h1
    · intro h; simp at h
    · exact ih _ _

theorem measure_rc_zero {σ : Type} (B : Bus σ) (s : σ) (val : Int)
    (h : (vcnl3020_measure_proximity B (World.init s) val).rc = 0) :
    ((B.read s VCNL_COMMAND).1 < 0
      ∧ (vcnl3020_measure_proximity B (World.init s) val).val = val
      ∧ (vcnl3020_measure_proximity B (World.init s) val).w.trace
          = [Event.lock, Event.read VCNL_COMMAND (B.read s VCNL_COMMAND).1, Event.unlock])
    ∨ (0 ≤ (B.read s VCNL_COMMAND).1 ∧ ∃ r2 pe hi lo r5, 0 ≤ hi ∧ 0 ≤ lo ∧ (∀ e ∈ pe, isPoll e)
      ∧ (vcnl3020_measure_proximity B (World.init s) val).val
          = s32_or (s32_shl (s32_and hi 0xff) 8) (s32_and lo 0xff)
      ∧ (vcnl3020_measure_proximity B (World.init s) val).w.trace
          = [Event.lock, Event.read VCNL_COMMAND (B.read s VCNL_COMMAND).1,
              Event.write VCNL_COMMAND 8 r2] ++ pe
            ++ [Event.read VCNL_PS_RESULT_HI hi, Event.read VCNL_PS_RESULT_LO lo,
                Event.write VCNL_COMMAND (to_u32 (B.read s VCNL_COMMAND).1 % 256) r5,
                Event.unlock]) := by
  revert h
  simp only [vcnl3020_measure_proximity]
  split_ifs with c1 c2 c3 c4 c5 c6 c7
  · intro _
    left
    exact ⟨c1, rfl, rfl⟩
  · intro h; simp only [measure_fail] at h; omega
  · intro h
    have := poll_ready_failed_rc B _ _ _ c3
    simp only [measure_fail] at h
    omega
  · intro h; simp only [measure_fail, EIO] at h; omega
  · intro h; simp only [measure_fail] at h; omega
  · intro h; simp only [measure_fail] at h; omega
  · intro h; simp only [measure_fail] at h; omega
  · intro _
    right
    refine ⟨not_lt.mp c1, ?_⟩
    set r1 := i2c_smbus_read_byte_data B (mutex_lock (World.init s)) VCNL_COMMAND with hr1
    set r2 := i2c_smbus_write_byte_data B r1.2 VCNL_COMMAND VCNL_PS_OD with hr2
    set p := poll_ready B 20 r2.1 r2.2 with hp
    set r3 := i2c_smbus_read_byte_data B p.w VCNL_PS_RESULT_HI with hr3
    set r4 := i2c_smbus_read_byte_data B r3.2 VCNL_PS_RESULT_LO with hr4
    set r5 := i2c_smbus_write_byte_data B r4.2 VCNL_COMMAND (to_u32 r1.1) with hr5
    obtain ⟨pe, hpe, hall⟩ := poll_ready_trace B 20 r2.1 r2.2
    refine ⟨r2.1, pe, r3.1, r4.1, r5.1, not_lt.mp c5, not_lt.mp c6, hall, rfl, ?_⟩
    have e5 : r5.2.trace = r4.2.trace ++ [Event.write VCNL_COMMAND (to_u32 r1.1 % 256) r5.1] := rfl
    have e4 : r4.2.trace = r3.2.trace ++ [Event.read VCNL_PS_RESULT_LO r4.1] := rfl
    have e3 : r3.2.trace = p.w.trace ++ [Event.read VCNL_PS_RESULT_HI r3.1] := rfl
    have e2 : r2.2.trace = r1.2.trace ++ [Event.write VCNL_COMMAND (VCNL_PS_OD % 256) r2.1] := rfl
    have e1 : r1.2.trace = [Event.lock, Event.read VCNL_COMMAND r1.1] := rfl
    have e0 : r1.1 = (B.read s VCNL_COMMAND).1 := rfl
    have eod : VCNL_PS_OD % 256 = 8 := rfl
    have hpe2 : p.w.trace = r2.2.trace ++ pe := hpe
    simp only [mutex_unlock, e5, e4, e3, hpe2, e2, e1, eod]
    simp [← e0]


theorem writesOf_append (a b : List Event) : writesOf (a ++ b) = writesOf a ++ writesOf b := by
  induction a with
  | nil => rfl
  | cons e es ih => cases e <;> simp [writesOf, ih]

theorem transactionsOf_append (a b : List Event) :
    transactionsOf (a ++ b) = transactionsOf a ++ transactionsOf b := by
  induction a with
  | nil => rfl
  | cons e es ih => cases e <;> simp [transactionsOf, ih]

theorem writesOf_polls (pe : List Event) (h : ∀ e ∈ pe, isPoll e) : writesOf pe = [] := by
  induction pe with
  | nil => rfl
  | cons e es ih =>
    have he := h e (by simp)
    have hes := ih (fun x hx => h x (by simp [hx]))
    rcases he with ⟨r, rfl⟩ | rfl <;> simp [writesOf, hes]

/-- C6: when the measurement returns 0 after its first transaction read the
byte `c` from COMMAND, the call has issued exactly two writes, both to
COMMAND: first 0x08 (only the on-demand bit), then `c`; the first bus
transaction of the call is that read and the last one is the write of `c`. -/
theorem measure_writes_trigger_then_restore {σ : Type} (B : Bus σ) (s : σ) (val : Int)
    (c : Nat) (hc : c < 256) (hsave : (B.read s VCNL_COMMAND).1 = (c : Int))
    (hrc : (vcnl3020_measure_proximity B (World.init s) val).rc = 0) :
    writesOf (vcnl3020_measure_proximity B (World.init s) val).w.trace
        = [(VCNL_COMMAND, 0x08), (VCNL_COMMAND, c)]
    ∧ ∃ mid r, transactionsOf (vcnl3020_measure_proximity B (World.init s) val).w.trace
        = Event.read VCNL_COMMAND c :: mid ++ [Event.write VCNL_COMMAND c r] := by
  rcases measure_rc_zero B s val hrc with ⟨hneg, _, _⟩ | ⟨_, r2, pe, h, l, r5, _, _, hpe, _, htr⟩
  · rw [hsave] at hneg; omega
  · have hcc : to_u32 (c : Int) % 256 = c := by
      rw [to_u32_natCast c (by omega)]; exact Nat.mod_eq_of_lt hc
    rw [htr, hsave, hcc]
    constructor
    · simp [writesOf_append, writesOf, writesOf_polls pe hpe]
    · refine ⟨Event.write VCNL_COMMAND 8 r2 :: transactionsOf pe
          ++ [Event.read VCNL_PS_RESULT_HI h, Event.read VCNL_PS_RESULT_LO l], r5, ?_⟩
      simp [transactionsOf_append, transactionsOf]

theorem init_cases {σ : Type} (B : Bus σ) (s : σ) (props : DeviceProps) (data : vcnl3020_data) :
    (¬ propsOk props
      ∧ (vcnl3020_init B props data (World.init s)).rc ≠ 0
      ∧ (vcnl3020_init B props data (World.init s)).data = data
      ∧ (vcnl3020_init B props data (World.init s)).w.trace = [])
    ∨ (propsOk props ∧ (B.read s VCNL_PROD_REV).1 ≠ (VCNL3020_PROD_ID : Int)
      ∧ (vcnl3020_init B props data (World.init s)).rc
          = (if (B.read s VCNL_PROD_REV).1 < 0 then (B.read s VCNL_PROD_REV).1 else - ENODEV)
      ∧ (vcnl3020_init B props data (World.init s)).data = data
      ∧ (vcnl3020_init B props data (World.init s)).w.trace
          = [Event.read VCNL_PROD_REV (B.read s VCNL_PROD_REV).1])
    ∨ (propsOk props ∧ (B.read s VCNL_PROD_REV).1 = (VCNL3020_PROD_ID : Int)
      ∧ (vcnl3020_init B props data (World.init s)).data = ⟨(VCNL3020_PROD_ID : Int), true⟩
      ∧ ∃ good bad, good.length < 6 ∧ (∀ r ∈ good, (0 : Int) ≤ r) ∧ bad < 0
        ∧ (vcnl3020_init B props data (World.init s)).rc = bad
        ∧ (vcnl3020_init B props data (World.init s)).w.trace
            = Event.read VCNL_PROD_REV (VCNL3020_PROD_ID : Int)
                :: writeEvents (initWrites props) (good ++ [bad]))
    ∨ (propsOk props ∧ (B.read s VCNL_PROD_REV).1 = (VCNL3020_PROD_ID : Int)
      ∧ (vcnl3020_init B props data (World.init s)).data = ⟨(VCNL3020_PROD_ID : Int), true⟩
      ∧ ∃ rs rb, rs.length = 6 ∧ (∀ r ∈ rs, (0 : Int) ≤ r)
        ∧ (vcnl3020_init B props data (World.init s)).rc = 0
        ∧ (vcnl3020_init B props data (World.init s)).w.trace
            = Event.read VCNL_PROD_REV (VCNL3020_PROD_ID : Int)
                :: writeEvents (initWrites props) rs ++ [Event.read VCNL_COMMAND rb]) := by
  generalize hout : vcnl3020_init B props data (World.init s) = out
  simp only [vcnl3020_init] at hout
  have e0 : (i2c_smbus_read_byte_data B (World.init s) VCNL_PROD_REV).2.trace
      = [Event.read VCNL_PROD_REV (i2c_smbus_read_byte_data B (World.init s) VCNL_PROD_REV).1] := rfl
  have eid : (i2c_smbus_read_byte_data B (World.init s) VCNL_PROD_REV).1
      = (B.read s VCNL_PROD_REV).1 := rfl
  rw [← eid]
  generalize i2c_smbus_read_byte_data B (World.init s) VCNL_PROD_REV = r0 at hout e0
  have e1 : ∀ (w : World σ) c v, (i2c_smbus_write_byte_data B w c v).2.trace
      = w.trace ++ [Event.write c (v % 256) (i2c_smbus_write_byte_data B w c v).1] :=
    fun _ _ _ => rfl
  have e7 : ∀ (w : World σ) c, (i2c_smbus_read_byte_data B w c).2.trace
      = w.trace ++ [Event.read c (i2c_smbus_read_byte_data B w c).1] :=
    fun _ _ => rfl
  have h1 := e1 r0.2 VCNL_PROXIMITY_RATE (props.proximity_rate.param_val % 2 ^ 32)
  generalize i2c_smbus_write_byte_data B r0.2 VCNL_PROXIMITY_RATE
    (props.proximity_rate.param_val % 2 ^ 32) = r1 at hout h1
  have h2 := e1 r1.2 VCNL_LED_CURRENT (props.led_current.param_val % 2 ^ 32)
  generalize i2c_smbus_write_byte_data B r1.2 VCNL_LED_CURRENT
    (props.led_current.param_val % 2 ^ 32) = r2 at hout h2
  have h3 := e1 r2.2 VCNL_PS_LO_THR_LO (props.threshold.param_val % 2 ^ 32 &&& 0xFF)
  generalize i2c_smbus_write_byte_data B r2.2 VCNL_PS_LO_THR_LO
    (props.threshold.param_val % 2 ^ 32 &&& 0xFF) = r3 at hout h3
  have h4 := e1 r3.2 VCNL_PS_LO_THR_HI ((props.threshold.param_val % 2 ^ 32) >>> 8 &&& 0xFF)
  generalize i2c_smbus_write_byte_data B r3.2 VCNL_PS_LO_THR_HI
    ((props.threshold.param_val % 2 ^ 32) >>> 8 &&& 0xFF) = r4 at hout h4
  have h5 := e1 r4.2 VCNL_PS_ICR
    ((props.count_exceed.param_val % 2 ^ 32) <<< ICR_COUNT_EXCEED % 2 ^ 32 ||| ICR_THRES_EN)
  generalize i2c_smbus_write_byte_data B r4.2 VCNL_PS_ICR
    ((props.count_exceed.param_val % 2 ^ 32) <<< ICR_COUNT_EXCEED % 2 ^ 32 ||| ICR_THRES_EN)
    = r5 at hout h5
  have h6 := e1 r5.2 VCNL_COMMAND ((VCNL_PS_EN ||| VCNL_PS_SELFTIMED_EN) &&& (VCNL_PS_OD ^^^ 0xff))
  generalize i2c_smbus_write_byte_data B r5.2 VCNL_COMMAND
    ((VCNL_PS_EN ||| VCNL_PS_SELFTIMED_EN) &&& (VCNL_PS_OD ^^^ 0xff)) = r6 at hout h6
  have h7 := e7 r6.2 VCNL_COMMAND
  generalize i2c_smbus_read_byte_data B r6.2 VCNL_COMMAND = r7 at hout h7
  clear e1 e7 eid
  by_cases p1 : props.proximity_rate.rc ≠ 0
  · rw [if_pos p1] at hout; subst hout
    exact Or.inl ⟨fun h => p1 h.1, p1, rfl, rfl⟩
  rw [if_neg p1] at hout
  by_cases p2 : props.led_current.rc ≠ 0
  · rw [if_pos p2] at hout; subst hout
    exact Or.inl ⟨fun h => p2 h.2.1, p2, rfl, rfl⟩
  rw [if_neg p2] at hout
  by_cases p3 : props.threshold.rc ≠ 0
  · rw [if_pos p3] at hout; subst hout
    exact Or.inl ⟨fun h => p3 h.2.2.1, p3, rfl, rfl⟩
  rw [if_neg p3] at hout
  by_cases p4 : props.count_exceed.rc ≠ 0
  · rw [if_pos p4] at hout; subst hout
    exact Or.inl ⟨fun h => p4 h.2.2.2, p4, rfl, rfl⟩
  rw [if_neg p4] at hout
  have hp : propsOk props := ⟨not_not.mp p1, not_not.mp p2, not_not.mp p3, not_not.mp p4⟩
  have hdata : ∀ x : Int, x = (VCNL3020_PROD_ID : Int) →
      (⟨s32_and x 0xff, true⟩ : vcnl3020_data) = ⟨(VCNL3020_PROD_ID : Int), true⟩ := by
    intro x hx; subst hx; decide
  split_ifs at hout with c0 cid c1 c2 c3 c4 c5 c6 <;> subst hout
  · refine Or.inr (Or.inl ⟨hp, ?_, ?_, rfl, e0⟩)
    · intro h; rw [h] at c0; revert c0; decide
    · simp [c0]
  · refine Or.inr (Or.inr (Or.inl ⟨hp, cid, hdata _ cid, [], r1.1, by simp,
      by intro r hr; simp at hr, c1, rfl, ?_⟩))
    simp [h1, e0, cid, writeEvents, initWrites]
  · refine Or.inr (Or.inr (Or.inl ⟨hp, cid, hdata _ cid, [r1.1], r2.1, by simp,
      by intro r hr; simp at hr; omega, c2, rfl, ?_⟩))
    simp [h2, h1, e0, cid, writeEvents, initWrites]
  · refine Or.inr (Or.inr (Or.inl ⟨hp, cid, hdata _ cid, [r1.1, r2.1], r3.1, by simp,
      by intro r hr; simp at hr; omega, c3, rfl, ?_⟩))
    simp [h3, h2, h1, e0, cid, writeEvents, initWrites]
  · refine Or.inr (Or.inr (Or.inl ⟨hp, cid, hdata _ cid, [r1.1, r2.1, r3.1], r4.1, by simp,
      by intro r hr; simp at hr; omega, c4, rfl, ?_⟩))
    simp [h4, h3, h2, h1, e0, cid, writeEvents, initWrites]
  · refine Or.inr (Or.inr (Or.inl ⟨hp, cid, hdata _ cid, [r1.1, r2.1, r3.1, r4.1], r5.1, by simp,
      by intro r hr; simp at hr; omega, c5, rfl, ?_⟩))
    simp [h5, h4, h3, h2, h1, e0, cid, writeEvents, initWrites]
  · refine Or.inr (Or.inr (Or.inl ⟨hp, cid, hdata _ cid, [r1.1, r2.1, r3.1, r4.1, r5.1], r6.1, by simp,
      by intro r hr; simp at hr; omega, c6, rfl, ?_⟩))
    simp [h6, h5, h4, h3, h2, h1, e0, cid, writeEvents, initWrites]
  · refine Or.inr (Or.inr (Or.inr ⟨hp, cid, hdata _ cid, [r1.1, r2.1, r3.1, r4.1, r5.1, r6.1],
      r7.1, by simp, by intro r hr; simp at hr; omega, rfl, ?_⟩))
    simp [h7, h6, h5, h4, h3, h2, h1, e0, cid, writeEvents, initWrites]
  · refine Or.inr (Or.inl ⟨hp, cid, ?_, rfl, e0⟩)
    simp [c0]

theorem writesOf_writeEvents : ∀ (ws : List (Nat × Nat)) (rs : List Int),
    writesOf (writeEvents ws rs) = ws.take rs.length
  | [], rs => by cases rs <;> simp [writeEvents, writesOf]
  | (c, v) :: ws, [] => by simp [writeEvents, writesOf]
  | (c, v) :: ws, r :: rs => by
    simp [writeEvents, writesOf, writesOf_writeEvents ws rs]

theorem writeResultsOf_writeEvents : ∀ (ws : List (Nat × Nat)) (rs : List Int),
    writeResultsOf (writeEvents ws rs) = rs.take ws.length
  | [], rs => by cases rs <;> simp [writeEvents, writeResultsOf]
  | (c, v) :: ws, [] => by simp [writeEvents, writeResultsOf]
  | (c, v) :: ws, r :: rs => by
    simp [writeEvents, writeResultsOf, writeResultsOf_writeEvents ws rs]

theorem writeResultsOf_append (a b : List Event) :
    writeResultsOf (a ++ b) = writeResultsOf a ++ writeResultsOf b := by
  induction a with
  | nil => rfl
  | cons e es ih => cases e <;> simp [writeResultsOf, ih]

theorem initWrites_registers (props : DeviceProps) :
    (initWrites props).map Prod.fst = initWriteOrder := rfl

theorem failing_index (good : List Int) (bad : Int) (hgood : ∀ r ∈ good, (0 : Int) ≤ r)
    (i : Nat) (e : Int) (hi : (good ++ [bad])[i]? = some e) (he : e < 0) :
    i = good.length ∧ e = bad := by
  rcases Nat.lt_trichotomy i good.length with h | h | h
  · rw [List.getElem?_append_left h] at hi
    have hmem : e ∈ good := List.getElem?_mem hi
    have := hgood e hmem
    omega
  · subst h
    simp at hi
    exact ⟨rfl, hi.symm⟩
  · rw [List.getElem?_eq_none (by simp; omega)] at hi
    simp at hi

theorem init_scripted_first_failure (script : Nat → Int) (props : DeviceProps)
    (data : vcnl3020_data) (hp : propsOk props) (h0 : script 0 = (VCNL3020_PROD_ID : Int))
    (i : Nat) (hi1 : 1 ≤ i) (hi6 : i ≤ 6) (hgood : ∀ j, 1 ≤ j → j < i → 0 ≤ script j)
    (hbad : script i < 0) :
    vcnl3020_init (scripted script) props data (World.init 0)
      = ⟨script i, ⟨(VCNL3020_PROD_ID : Int), true⟩,
          ⟨i + 1, Event.read VCNL_PROD_REV (VCNL3020_PROD_ID : Int)
            :: writeEvents (initWrites props) ((List.range i).map (fun j => script (j + 1)))⟩⟩ := by
  obtain ⟨p1, p2, p3, p4⟩ := hp
  have hid : ¬ ((VCNL3020_PROD_ID : Nat) : Int) < 0 := by decide
  have hrev : s32_and ((VCNL3020_PROD_ID : Nat) : Int) 0xff = (VCNL3020_PROD_ID : Int) := by decide
  interval_cases i
  · simp [vcnl3020_init, p1, p2, p3, p4, scripted, i2c_smbus_read_byte_data,
      i2c_smbus_write_byte_data, World.init, h0, hid, hrev, hbad, writeEvents, initWrites,
      List.range_succ]
  · have n1 : ¬ script 1 < 0 := not_lt.mpr (hgood 1 (by decide) (by decide))
    simp [vcnl3020_init, p1, p2, p3, p4, scripted, i2c_smbus_read_byte_data,
      i2c_smbus_write_byte_data, World.init, h0, hid, hrev, hbad, n1, writeEvents, initWrites,
      List.range_succ]
  · have n1 : ¬ script 1 < 0 := not_lt.mpr (hgood 1 (by decide) (by decide))
    have n2 : ¬ script 2 < 0 := not_lt.mpr (hgood 2 (by decide) (by decide))
    simp [vcnl3020_init, p1, p2, p3, p4, scripted, i2c_smbus_read_byte_data,
      i2c_smbus_write_byte_data, World.init, h0, hid, hrev, hbad, n1, n2, writeEvents, initWrites,
      List.range_succ]
  · have n1 : ¬ script 1 < 0 := not_lt.mpr (hgood 1 (by decide) (by decide))
    have n2 : ¬ script 2 < 0 := not_lt.mpr (hgood 2 (by decide) (by decide))
    have n3 : ¬ script 3 < 0 := not_lt.mpr (hgood 3 (by decide) (by decide))
    simp [vcnl3020_init, p1, p2, p3, p4, scripted, i2c_smbus_read_byte_data,
      i2c_smbus_write_byte_data, World.init, h0, hid, hrev, hbad, n1, n2, n3, writeEvents, initWrites,
      List.range_succ]
  · have n1 : ¬ script 1 < 0 := not_lt.mpr (hgood 1 (by decide) (by decide))
    have n2 : ¬ script 2 < 0 := not_lt.mpr (hgood 2 (by decide) (by decide))
    have n3 : ¬ script 3 < 0 := not_lt.mpr (hgood 3 (by decide) (by decide))
    have n4 : ¬ script 4 < 0 := not_lt.mpr (hgood 4 (by decide) (by decide))
    simp [vcnl3020_init, p1, p2, p3, p4, scripted, i2c_smbus_read_byte_data,
      i2c_smbus_write_byte_data, World.init, h0, hid, hrev, hbad, n1, n2, n3, n4, writeEvents, initWrites,
      List.range_succ]
  · have n1 : ¬ script 1 < 0 := not_lt.mpr (hgood 1 (by decide) (by decide))
    have n2 : ¬ script 2 < 0 := not_lt.mpr (hgood 2 (by decide) (by decide))
    have n3 : ¬ script 3 < 0 := not_lt.mpr (hgood 3 (by decide) (by decide))
    have n4 : ¬ script 4 < 0 := not_lt.mpr (hgood 4 (by decide) (by decide))
    have n5 : ¬ script 5 < 0 := not_lt.mpr (hgood 5 (by decide) (by decide))
    simp [vcnl3020_init, p1, p2, p3, p4, scripted, i2c_smbus_read_byte_data,
      i2c_smbus_write_byte_data, World.init, h0, hid, hrev, hbad, n1, n2, n3, n4, n5, writeEvents, initWrites,
      List.range_succ]

theorem init_scripted_all_writes (script : Nat → Int) (props : DeviceProps)
    (data : vcnl3020_data) (hp : propsOk props) (h0 : script 0 = (VCNL3020_PROD_ID : Int))
    (hgood : ∀ j, 1 ≤ j → j ≤ 6 → 0 ≤ script j) :
    vcnl3020_init (scripted script) props data (World.init 0)
      = ⟨0, ⟨(VCNL3020_PROD_ID : Int), true⟩,
          ⟨8, Event.read VCNL_PROD_REV (VCNL3020_PROD_ID : Int)
            :: writeEvents (initWrites props) ((List.range 6).map (fun j => script (j + 1)))
            ++ [Event.read VCNL_COMMAND (script 7)]⟩⟩ := by
  obtain ⟨p1, p2, p3, p4⟩ := hp
  have hid : ¬ ((VCNL3020_PROD_ID : Nat) : Int) < 0 := by decide
  have hrev : s32_and ((VCNL3020_PROD_ID : Nat) : Int) 0xff = (VCNL3020_PROD_ID : Int) := by decide
  have n1 : ¬ script 1 < 0 := not_lt.mpr (hgood 1 (by decide) (by decide))
  have n2 : ¬ script 2 < 0 := not_lt.mpr (hgood 2 (by decide) (by decide))
  have n3 : ¬ script 3 < 0 := not_lt.mpr (hgood 3 (by decide) (by decide))
  have n4 : ¬ script 4 < 0 := not_lt.mpr (hgood 4 (by decide) (by decide))
  have n5 : ¬ script 5 < 0 := not_lt.mpr (hgood 5 (by decide) (by decide))
  have n6 : ¬ script 6 < 0 := not_lt.mpr (hgood 6 (by decide) (by decide))
  simp [vcnl3020_init, p1, p2, p3, p4, scripted, i2c_smbus_read_byte_data,
    i2c_smbus_write_byte_data, World.init, h0, hid, hrev, n1, n2, n3, n4, n5, n6, writeEvents,
    initWrites, List.range_succ]

theorem init_no_failed_write_all_six {σ : Type} (B : Bus σ) (s : σ) (props : DeviceProps)
    (data : vcnl3020_data) (hp : propsOk props)
    (hid : (B.read s VCNL_PROD_REV).1 = (VCNL3020_PROD_ID : Int))
    (hall : ∀ e ∈ writeResultsOf (vcnl3020_init B props data (World.init s)).w.trace,
      (0 : Int) ≤ e) :
    writesOf (vcnl3020_init B props data (World.init s)).w.trace = initWrites props
    ∧ (vcnl3020_init B props data (World.init s)).rc = 0 := by
  rcases init_cases B s props data with ⟨hnp, _, _, _⟩ | ⟨_, hne, _, _, _⟩
    | ⟨_, _, _, good, bad, hlen, _, hbad, _, htr⟩
    | ⟨_, _, _, rs, rb, hlen, _, hrc, htr⟩
  · exact absurd hp hnp
  · exact absurd hid hne
  · have hl6 : (initWrites props).length = 6 := rfl
    have hr : writeResultsOf (vcnl3020_init B props data (World.init s)).w.trace
        = good ++ [bad] := by
      rw [htr]
      simp only [writeResultsOf, writeResultsOf_writeEvents, hl6]
      exact List.take_of_length_le (by simp; omega)
    have := hall bad (by rw [hr]; simp)
    omega
  · have hl6 : (initWrites props).length = 6 := rfl
    refine ⟨?_, hrc⟩
    rw [htr]
    simp only [List.cons_append, writesOf, List.append_eq, writesOf_append,
      writesOf_writeEvents, List.append_nil, hlen]
    exact List.take_of_length_le (by rw [hl6])

theorem init_writes_generic {σ : Type} (B : Bus σ) (s : σ) (props : DeviceProps)
    (data : vcnl3020_data) :
    (writesOf (vcnl3020_init B props data (World.init s)).w.trace).map Prod.fst
        <+: initWriteOrder
    ∧ (∀ i e, (writeResultsOf (vcnl3020_init B props data (World.init s)).w.trace)[i]? = some e →
        e < 0 →
        (writesOf (vcnl3020_init B props data (World.init s)).w.trace).map Prod.fst
            = initWriteOrder.take (i + 1)
        ∧ (writeResultsOf (vcnl3020_init B props data (World.init s)).w.trace).length = i + 1
        ∧ (vcnl3020_init B props data (World.init s)).rc = e) := by
  rcases init_cases B s props data with ⟨_, _, _, htr⟩ | ⟨_, _, _, _, htr⟩
    | ⟨_, _, _, good, bad, hlen, hgood, hbad, hrc, htr⟩
    | ⟨_, _, _, rs, rb, hlen, hall, hrc, htr⟩
  · rw [htr]
    exact ⟨by simp [writesOf, initWriteOrder], by intro i e hi; simp [writeResultsOf] at hi⟩
  · rw [htr]
    exact ⟨by simp [writesOf, initWriteOrder], by intro i e hi; simp [writeResultsOf] at hi⟩
  · have hl6 : (initWrites props).length = 6 := rfl
    have hw : writesOf (vcnl3020_init B props data (World.init s)).w.trace
        = (initWrites props).take (good.length + 1) := by
      rw [htr]; simp [writesOf, writesOf_writeEvents]
    have hr : writeResultsOf (vcnl3020_init B props data (World.init s)).w.trace
        = good ++ [bad] := by
      rw [htr]
      simp only [writeResultsOf, writeResultsOf_writeEvents, hl6]
      exact List.take_of_length_le (by simp; omega)
    rw [hw, hr, hrc, List.map_take, initWrites_registers]
    refine ⟨List.take_prefix _ _, ?_⟩
    intro i e hi he
    obtain ⟨rfl, rfl⟩ := failing_index good bad hgood i e hi he
    exact ⟨rfl, by simp, rfl⟩
  · have hl6 : (initWrites props).length = 6 := rfl
    have hw : writesOf (vcnl3020_init B props data (World.init s)).w.trace
        = initWrites props := by
      rw [htr]
      simp only [List.cons_append, writesOf, List.append_eq, writesOf_append,
        writesOf_writeEvents, List.append_nil, hlen]
      exact List.take_of_length_le (by rw [hl6])
    have hr : writeResultsOf (vcnl3020_init B props data (World.init s)).w.trace = rs := by
      rw [htr]
      simp only [List.cons_append, writeResultsOf, List.append_eq, writeResultsOf_append,
        writeResultsOf_writeEvents, List.append_nil, hl6]
      exact List.take_of_length_le (by rw [hlen])
    rw [hw, hr, initWrites_registers]
    refine ⟨List.prefix_refl _, ?_⟩
    intro i e hi he
    have := hall e (List.getElem?_mem hi)
    omega

/-- C7: whatever the configuration and the answers of the bus, the registers
written by `vcnl3020_init` are an initial part of PROXIMITY_RATE, LED_CURRENT,
PS_LO_THR_LO, PS_LO_THR_HI, PS_ICR, COMMAND; when a write answers a negative
code, being write number `i + 1`, the writes issued are exactly the first
`i + 1` of that list, it is the last write of the call, and the function
returns that code; when the properties are there, the identity is 0x21 and no
write answers a negative code, all six writes are issued, with the bytes of
the configuration, and the function returns 0.  On a script of answers
(transaction 0 the identity 0x21, transaction `i` the answer to write `i`):
if write `i` (1 ≤ i ≤ 6) is the first to fail, the trace is the identity read
followed by exactly the first `i` writes, and the return value is the answer
to write `i`; if none of the six fails, the trace holds all six writes and
then the read-back. -/
theorem init_writes_in_order_fail_fast {σ : Type} (B : Bus σ) (s : σ) (props : DeviceProps)
    (data : vcnl3020_data) (script : Nat → Int) :
    ((writesOf (vcnl3020_init B props data (World.init s)).w.trace).map Prod.fst
        <+: initWriteOrder)
    ∧ (∀ i e, (writeResultsOf (vcnl3020_init B props data (World.init s)).w.trace)[i]? = some e →
        e < 0 →
        (writesOf (vcnl3020_init B props data (World.init s)).w.trace).map Prod.fst
            = initWriteOrder.take (i + 1)
        ∧ (writeResultsOf (vcnl3020_init B props data (World.init s)).w.trace).length = i + 1
        ∧ (vcnl3020_init B props data (World.init s)).rc = e)
    ∧ (propsOk props → (B.read s VCNL_PROD_REV).1 = (VCNL3020_PROD_ID : Int) →
        (∀ e ∈ writeResultsOf (vcnl3020_init B props data (World.init s)).w.trace,
          (0 : Int) ≤ e) →
        writesOf (vcnl3020_init B props data (World.init s)).w.trace = initWrites props
        ∧ (writesOf (vcnl3020_init B props data (World.init s)).w.trace).map Prod.fst
            = initWriteOrder
        ∧ (vcnl3020_init B props data (World.init s)).rc = 0)
    ∧ (propsOk props → script 0 = (VCNL3020_PROD_ID : Int) →
        ∀ i, 1 ≤ i → i ≤ 6 → (∀ j, 1 ≤ j → j < i → 0 ≤ script j) → script i < 0 →
        (vcnl3020_init (scripted script) props data (World.init 0)).rc = script i
        ∧ (vcnl3020_init (scripted script) props data (World.init 0)).w.trace
            = Event.read VCNL_PROD_REV (VCNL3020_PROD_ID : Int)
                :: writeEvents (initWrites props)
                    ((List.range i).map (fun j => script (j + 1)))
        ∧ writesOf (vcnl3020_init (scripted script) props data (World.init 0)).w.trace
            = (initWrites props).take i
        ∧ (writesOf (vcnl3020_init (scripted script) props data (World.init 0)).w.trace).map
            Prod.fst = initWriteOrder.take i)
    ∧ (propsOk props → script 0 = (VCNL3020_PROD_ID : Int) →
        (∀ j, 1 ≤ j → j ≤ 6 → 0 ≤ script j) →
        (vcnl3020_init (scripted script) props data (World.init 0)).rc = 0
        ∧ (vcnl3020_init (scripted script) props data (World.init 0)).w.trace
            = Event.read VCNL_PROD_REV (VCNL3020_PROD_ID : Int)
                :: writeEvents (initWrites props)
                    ((List.range 6).map (fun j => script (j + 1)))
                ++ [Event.read VCNL_COMMAND (script 7)]
        ∧ writesOf (vcnl3020_init (scripted script) props data (World.init 0)).w.trace
            = initWrites props
        ∧ (writesOf (vcnl3020_init (scripted script) props data (World.init 0)).w.trace).map
            Prod.fst = initWriteOrder) := by
  have hl6 : (initWrites props).length = 6 := rfl
  refine ⟨(init_writes_generic B s props data).1, (init_writes_generic B s props data).2,
    ?_, ?_, ?_⟩
  · intro hp hid hall
    obtain ⟨hw, hrc⟩ := init_no_failed_write_all_six B s props data hp hid hall
    exact ⟨hw, by rw [hw]; rfl, hrc⟩
  · intro hp h0 i hi1 hi6 hgood hbad
    rw [init_scripted_first_failure script props data hp h0 i hi1 hi6 hgood hbad]
    have hw : writesOf (Event.read VCNL_PROD_REV (VCNL3020_PROD_ID : Int)
        :: writeEvents (initWrites props) ((List.range i).map (fun j => script (j + 1))))
        = (initWrites props).take i := by
      simp [writesOf, writesOf_writeEvents]
    refine ⟨rfl, rfl, hw, ?_⟩
    show (writesOf _).map Prod.fst = _
    rw [hw, List.map_take, initWrites_registers]
  · intro hp h0 hgood
    rw [init_scripted_all_writes script props data hp h0 hgood]
    have hw : writesOf (Event.read VCNL_PROD_REV (VCNL3020_PROD_ID : Int)
        :: writeEvents (initWrites props) ((List.range 6).map (fun j => script (j + 1)))
        ++ [Event.read VCNL_COMMAND (script 7)]) = initWrites props := by
      simp only [List.cons_append, writesOf, List.append_eq, writesOf_append,
        writesOf_writeEvents, List.append_nil, List.length_map, List.length_range]
      exact List.take_of_length_le (by rw [hl6])
    refine ⟨rfl, rfl, hw, ?_⟩
    show (writesOf _).map Prod.fst = _
    rw [hw, initWrites_registers]

theorem propsOk_config (a b c d : Nat) : propsOk (config a b c d) := ⟨rfl, rfl, rfl, rfl⟩

/-- C8: when the firmware properties are there and the read of PROD_REV
answers anything but 0x21, `vcnl3020_init` returns a negative code (the
transport's code when the read failed, `-ENODEV` when it answered another
identifier), its only bus transaction is that read, it writes no register
and leaves `data` (the revision, the lock) as it was; and whatever the
properties, it returns 0 only if the read answered exactly 0x21. -/
theorem init_rejects_wrong_identity {σ : Type} (B : Bus σ) (s : σ) (props : DeviceProps)
    (data : vcnl3020_data) :
    (propsOk props → (B.read s VCNL_PROD_REV).1 ≠ 0x21 →
      (vcnl3020_init B props data (World.init s)).rc < 0
      ∧ ((B.read s VCNL_PROD_REV).1 < 0 →
          (vcnl3020_init B props data (World.init s)).rc = (B.read s VCNL_PROD_REV).1)
      ∧ (0 ≤ (B.read s VCNL_PROD_REV).1 →
          (vcnl3020_init B props data (World.init s)).rc = - ENODEV)
      ∧ writesOf (vcnl3020_init B props data (World.init s)).w.trace = []
      ∧ (vcnl3020_init B props data (World.init s)).w.trace
          = [Event.read VCNL_PROD_REV (B.read s VCNL_PROD_REV).1]
      ∧ (vcnl3020_init B props data (World.init s)).data = data)
    ∧ ((vcnl3020_init B props data (World.init s)).rc = 0 →
        (B.read s VCNL_PROD_REV).1 = 0x21) := by
  have hID : ((VCNL3020_PROD_ID : Nat) : Int) = 0x21 := rfl
  rcases init_cases B s props data with ⟨hnp, hrc, _, _⟩ | ⟨_, hid, hrc, hdata, htr⟩
    | ⟨_, hid, _, good, bad, _, _, hbad, hrc, _⟩
    | ⟨_, hid, _, _⟩
  · exact ⟨fun hp => absurd hp hnp, fun h0 => absurd h0 hrc⟩
  · constructor
    · intro _ _
      refine ⟨?_, ?_, ?_, by rw [htr]; rfl, htr, hdata⟩
      · rw [hrc]; split_ifs with h
        · exact h
        · decide
      · intro h; rw [hrc, if_pos h]
      · intro h; rw [hrc, if_neg (not_lt.mpr h)]
    · intro h0
      rw [hrc] at h0
      split_ifs at h0 with h
      · omega
      · exact absurd h0 (by decide)
  · rw [hID] at hid
    exact ⟨fun _ hne => absurd hid hne, fun _ => hid⟩
  · rw [hID] at hid
    exact ⟨fun _ hne => absurd hid hne, fun _ => hid⟩

/-- Witness of C8: the identifier 0x20 is answered with `-ENODEV`. -/
theorem init_rejects_wrong_identity_witness :
    propsOk (config 1 2 0x1234 1)
    ∧ ((scripted (scriptOf [0x20] 0)).read 0 VCNL_PROD_REV).1 ≠ 0x21
    ∧ (vcnl3020_init (scripted (scriptOf [0x20] 0)) (config 1 2 0x1234 1) ⟨0, false⟩
        (World.init 0)).rc = - ENODEV :=
  ⟨propsOk_config 1 2 0x1234 1, by decide,
    ((init_rejects_wrong_identity (scripted (scriptOf [0x20] 0)) 0 (config 1 2 0x1234 1)
      ⟨0, false⟩).1 (propsOk_config 1 2 0x1234 1) (by decide)).2.2.1 (by decide)⟩

theorem icr_byte (cnt : Nat) :
    ((cnt <<< ICR_COUNT_EXCEED) % 2 ^ 32 ||| ICR_THRES_EN) % 256 = 2 := by
  have h1 : cnt <<< ICR_COUNT_EXCEED = cnt * 65536 := by
    rw [Nat.shiftLeft_eq]; rfl
  obtain ⟨m, hm⟩ : ∃ m, (cnt * 65536) % 2 ^ 32 = 2 ^ 8 * m :=
    ⟨(cnt * 65536) % 2 ^ 32 / 256, by omega⟩
  have h2 : 2 ^ 8 * m ||| ICR_THRES_EN = 2 ^ 8 * m + 2 :=
    (Nat.mul_add_lt_is_or (by decide : (2 : Nat) < 2 ^ 8) m).symm
  rw [h1, hm, h2]
  omega

/-- C9: on a bus that answers the identity 0x21 and accepts every write, the
byte that `vcnl3020_init` writes to PS_ICR is 0x02 for every value of
count-exceed (and of the other three properties): the shift by
`ICR_COUNT_EXCEED` = 0x10 = 16 moves count-exceed out of the byte. -/
theorem init_icr_byte_ignores_count_exceed (rate cur thr cnt : Nat) :
    writesOf (vcnl3020_init (scripted (scriptOf [0x21] 0)) (config rate cur thr cnt) ⟨0, false⟩
        (World.init 0)).w.trace
      = [(VCNL_PROXIMITY_RATE, rate % 2 ^ 32 % 256),
         (VCNL_LED_CURRENT, cur % 2 ^ 32 % 256),
         (VCNL_PS_LO_THR_LO, (thr % 2 ^ 32 &&& 0xFF) % 256),
         (VCNL_PS_LO_THR_HI, ((thr % 2 ^ 32) >>> 8 &&& 0xFF) % 256),
         (VCNL_PS_ICR, 0x02),
         (VCNL_COMMAND, 0x03)] := by
  have h : writesOf (vcnl3020_init (scripted (scriptOf [0x21] 0)) (config rate cur thr cnt)
      ⟨0, false⟩ (World.init 0)).w.trace = initWrites (config rate cur thr cnt) := rfl
  rw [h]
  simp only [initWrites, config, icr_byte]
  rfl

/-- C10: when the first transaction of a measurement, the read that saves
COMMAND, fails with `-EIO`, the function returns 0 and not that code; it
leaves `*val` as it found it, issues no further transaction and releases the
lock. -/
theorem measure_returns_zero_on_failed_save_read (val : Int) :
    (vcnl3020_measure_proximity (scripted (fun _ => - EIO)) (World.init 0) val).rc = 0
    ∧ (vcnl3020_measure_proximity (scripted (fun _ => - EIO)) (World.init 0) val).val = val
    ∧ (vcnl3020_measure_proximity (scripted (fun _ => - EIO)) (World.init 0) val).w.trace
        = [Event.lock, Event.read VCNL_COMMAND (-5), Event.unlock] :=
  ⟨rfl, rfl, rfl⟩

/-- Witness of C4: the ready bit first shown by poll 20 still gives success,
after 19 sleeps. -/
theorem measure_timeout_iff_never_ready_witness :
    (∀ i, 0 ≤ readyAtPoll 20 i)
    ∧ (vcnl3020_measure_proximity (scripted (readyAtPoll 20)) (World.init 0) 0).rc = 0
    ∧ sleepsOf (vcnl3020_measure_proximity (scripted (readyAtPoll 20)) (World.init 0) 0).w.trace
        = List.replicate 19 20 :=
  have hok : ∀ i, 0 ≤ readyAtPoll 20 i := by
    intro i; unfold readyAtPoll; split <;> decide
  have h := (measure_timeout_iff_never_ready (readyAtPoll 20) 0 hok).2.1 20 (by decide)
    (by decide) (by decide)
    (by intro j _ h2; have hne : ¬ (j + 1 = 20 + 1) := by omega
        simp [readyAtPoll, hne])
  ⟨hok, h.1, h.2.2.2⟩

/-- Witness of C6: COMMAND held 3, the call writes 8 and then 3. -/
theorem measure_writes_trigger_then_restore_witness :
    (vcnl3020_measure_proximity (scripted measureScript) (World.init 0) 77).rc = 0
    ∧ writesOf (vcnl3020_measure_proximity (scripted measureScript) (World.init 0) 77).w.trace
        = [(VCNL_COMMAND, 0x08), (VCNL_COMMAND, 3)] :=
  ⟨by decide,
    (measure_writes_trigger_then_restore (scripted measureScript) 0 77 3 (by decide) (by decide)
      (by decide)).1⟩

/-- Witness of C7: when the third write fails with -5, three writes were
issued and -5 is returned; when nothing fails, all six writes are issued. -/
theorem init_writes_in_order_fail_fast_witness :
    ((writeResultsOf (vcnl3020_init (scripted initScriptThirdWriteFails) (config 1 2 0x1234 1)
        ⟨0, false⟩ (World.init 0)).w.trace)[2]? = some (-5)
      ∧ (writesOf (vcnl3020_init (scripted initScriptThirdWriteFails) (config 1 2 0x1234 1)
          ⟨0, false⟩ (World.init 0)).w.trace).map Prod.fst
          = [VCNL_PROXIMITY_RATE, VCNL_LED_CURRENT, VCNL_PS_LO_THR_LO]
      ∧ (vcnl3020_init (scripted initScriptThirdWriteFails) (config 1 2 0x1234 1)
          ⟨0, false⟩ (World.init 0)).rc = -5)
    ∧ (initScriptThirdWriteFails 3 < 0
      ∧ writesOf (vcnl3020_init (scripted initScriptThirdWriteFails) (config 1 2 0x1234 1)
          ⟨0, false⟩ (World.init 0)).w.trace
          = [(VCNL_PROXIMITY_RATE, 1), (VCNL_LED_CURRENT, 2), (VCNL_PS_LO_THR_LO, 0x34)])
    ∧ ((∀ j, 1 ≤ j → j ≤ 6 → 0 ≤ scriptOf [0x21] 0 j)
      ∧ (writesOf (vcnl3020_init (scripted (scriptOf [0x21] 0)) (config 1 2 0x1234 1)
          ⟨0, false⟩ (World.init 0)).w.trace).map Prod.fst
          = [VCNL_PROXIMITY_RATE, VCNL_LED_CURRENT, VCNL_PS_LO_THR_LO, VCNL_PS_LO_THR_HI,
              VCNL_PS_ICR, VCNL_COMMAND]) :=
  have h := (init_writes_in_order_fail_fast (scripted initScriptThirdWriteFails) 0
    (config 1 2 0x1234 1) ⟨0, false⟩ initScriptThirdWriteFails).2.1 2 (-5) (by decide)
    (by decide)
  have hf := (init_writes_in_order_fail_fast (scripted initScriptThirdWriteFails) 0
    (config 1 2 0x1234 1) ⟨0, false⟩ initScriptThirdWriteFails).2.2.2.1
    (propsOk_config 1 2 0x1234 1) (by decide) 3 (by decide) (by decide)
    (by intro j h1 h3; interval_cases j <;> decide) (by decide)
  have hgood : ∀ j, 1 ≤ j → j ≤ 6 → 0 ≤ scriptOf [0x21] 0 j := by
    intro j h1 h6; interval_cases j <;> decide
  have hs := (init_writes_in_order_fail_fast (scripted (scriptOf [0x21] 0)) 0
    (config 1 2 0x1234 1) ⟨0, false⟩ (scriptOf [0x21] 0)).2.2.2.2
    (propsOk_config 1 2 0x1234 1) (by decide) hgood
  ⟨⟨by decide, h.1, h.2.2⟩, ⟨by decide, hf.2.2.1⟩, ⟨hgood, hs.2.2.2⟩⟩

/-- C11: `vcnl3020_hwmon_store` answers `-EINVAL` to every buffer that
`kstrtoul` rejects and to every buffer whose value is not 0, and in both
cases the world is left as it was: no lock, no bus transaction, so
`vcnl3020_clear_interrupts` was not called; when it does issue a bus
transaction the buffer was parsed to the value 0. -/
theorem hwmon_store_rejects_nonzero {σ β : Type} (kstrtoul : β → Nat → Nat → Int × Nat)
    (B : Bus σ) (w : World σ) (buf : β) (size : Nat) :
    ((kstrtoul buf 10 0).1 < 0 ∨ (kstrtoul buf 10 0).2 ≠ 0 →
      vcnl3020_hwmon_store kstrtoul B w buf size = (- EINVAL, w))
    ∧ ((vcnl3020_hwmon_store kstrtoul B w buf size).2.trace ≠ w.trace →
      0 ≤ (kstrtoul buf 10 0).1 ∧ (kstrtoul buf 10 0).2 = 0
      ∧ (vcnl3020_hwmon_store kstrtoul B w buf size).2 = (vcnl3020_clear_interrupts B w).2) := by
  by_cases h1 : (kstrtoul buf 10 0).1 < 0
  · have e : vcnl3020_hwmon_store kstrtoul B w buf size = (- EINVAL, w) := by
      simp only [vcnl3020_hwmon_store, if_pos h1]
    exact ⟨fun _ => e, fun h => absurd (by rw [e]) h⟩
  · by_cases h2 : (kstrtoul buf 10 0).2 ≠ 0
    · have e : vcnl3020_hwmon_store kstrtoul B w buf size = (- EINVAL, w) := by
        simp only [vcnl3020_hwmon_store, if_neg h1, if_pos h2]
      exact ⟨fun _ => e, fun h => absurd (by rw [e]) h⟩
    · refine ⟨fun h => ?_, fun _ => ⟨not_lt.mp h1, not_not.mp h2, ?_⟩⟩
      · rcases h with h | h
        · exact absurd h h1
        · exact absurd h h2
      · simp only [vcnl3020_hwmon_store, if_neg h1, if_neg h2]
        split_ifs <;> rfl

/-- Witness of C11: the text "1" is refused and nothing reaches the bus. -/
theorem hwmon_store_rejects_nonzero_witness :
    vcnl3020_hwmon_store kstrtoulOf (scripted (fun _ => 0)) (World.init 0) (some 1) 2
      = (- EINVAL, World.init 0) :=
  (hwmon_store_rejects_nonzero kstrtoulOf (scripted (fun _ => 0)) (World.init 0) (some 1) 2).1
    (Or.inr (by decide))

/-- C17: for a buffer that parses to 0, `vcnl3020_hwmon_store` returns the
request size when the write of `vcnl3020_clear_interrupts` does not fail, and
returns 0 when that write answers a negative code: not the code, and not the
size of a non-empty request. -/
theorem hwmon_store_zero_on_failed_clear {σ β : Type} (kstrtoul : β → Nat → Nat → Int × Nat)
    (B : Bus σ) (w : World σ) (buf : β) (size : Nat)
    (hparse : kstrtoul buf 10 0 = (0, 0)) (hsize : size < 2 ^ 63) :
    (¬ (vcnl3020_clear_interrupts B w).1 < 0 →
      (vcnl3020_hwmon_store kstrtoul B w buf size).1 = (size : Int))
    ∧ ((vcnl3020_clear_interrupts B w).1 < 0 →
      (vcnl3020_hwmon_store kstrtoul B w buf size).1 = 0
      ∧ (vcnl3020_hwmon_store kstrtoul B w buf size).1 ≠ (vcnl3020_clear_interrupts B w).1
      ∧ (0 < size → (vcnl3020_hwmon_store kstrtoul B w buf size).1 ≠ (size : Int)))
    ∧ (vcnl3020_hwmon_store kstrtoul B w buf size).2 = (vcnl3020_clear_interrupts B w).2 := by
  have hs : to_ssize size = (size : Int) := by
    unfold to_ssize
    rw [Nat.mod_eq_of_lt (by omega), if_pos hsize]
  have h0 : to_ssize 0 = 0 := by decide
  have h1 : ¬ (kstrtoul buf 10 0).1 < 0 := by rw [hparse]; decide
  have h2 : ¬ (kstrtoul buf 10 0).2 ≠ 0 := by rw [hparse]; decide
  refine ⟨fun h => ?_, fun h => ?_, ?_⟩
  · simp only [vcnl3020_hwmon_store, if_neg h1, if_neg h2, if_neg h, hs]
  · have e : (vcnl3020_hwmon_store kstrtoul B w buf size).1 = 0 := by
      simp only [vcnl3020_hwmon_store, if_neg h1, if_neg h2, if_pos h, h0]
    rw [e]
    exact ⟨rfl, by omega, by omega⟩
  · simp only [vcnl3020_hwmon_store, if_neg h1, if_neg h2]
    split_ifs <;> rfl

/-- Witness of C17: the text "0" of size 2 on a bus whose write fails with -5
is answered with 0. -/
theorem hwmon_store_zero_on_failed_clear_witness :
    kstrtoulOf (some 0) 10 0 = (0, 0)
    ∧ (vcnl3020_clear_interrupts (scripted (fun _ => -5)) (World.init 0)).1 = -5
    ∧ (vcnl3020_hwmon_store kstrtoulOf (scripted (fun _ => -5)) (World.init 0) (some 0) 2).1 = 0 :=
  ⟨rfl, by decide,
    ((hwmon_store_zero_on_failed_clear kstrtoulOf (scripted (fun _ => -5)) (World.init 0)
      (some 0) 2 rfl (by decide)).2.1 (by decide)).1⟩

theorem poll_regfile_never_ready (s : Nat → Nat) (h : s VCNL_COMMAND = 8) :
    ∀ (t : Nat) (rc : Int) (tr : List Event),
      (poll_ready regfile t rc ⟨s, tr⟩).failed = false
      ∧ (poll_ready regfile t rc ⟨s, tr⟩).tries = -1
      ∧ (poll_ready regfile t rc ⟨s, tr⟩).w.dev = s := by
  intro t
  induction t with
  | zero => intro rc tr; simp [poll_ready]
  | succ t ih =>
    intro rc tr
    have hn : ¬ ((s VCNL_COMMAND : Nat) : Int) < 0 := by omega
    have hr : ¬ (to_ulong ((s VCNL_COMMAND : Nat) : Int) &&& VCNL_PS_RDY ≠ 0) := by
      rw [h]; decide
    simp only [poll_ready, i2c_smbus_read_byte_data, regfile, msleep, hn, hr, if_false]
    have := ih ((s VCNL_COMMAND : Nat) : Int)
      (tr ++ [Event.read VCNL_COMMAND ((s VCNL_COMMAND : Nat) : Int)] ++ [Event.sleep 20])
    simpa [regfile] using this

/-- C13: on the register-file chip, whatever the registers hold, the
measurement ends with the timeout code and leaves 0x08 (on-demand only) in
COMMAND: the value saved at the start is not written back, and a chip that
held 0x03 (periodic mode) before the call holds 0x08 after it. -/
theorem measure_timeout_leaves_command_on_demand (s : Nat → Nat) (val : Int) :
    (vcnl3020_measure_proximity regfile (World.init s) val).rc = - EIO
    ∧ (vcnl3020_measure_proximity regfile (World.init s) val).w.dev VCNL_COMMAND = 0x08
    ∧ ∀ c, c ≠ VCNL_COMMAND →
        (vcnl3020_measure_proximity regfile (World.init s) val).w.dev c = s c := by
  have hn : ¬ ((s VCNL_COMMAND : Nat) : Int) < 0 := by omega
  have h8 : setReg s VCNL_COMMAND (VCNL_PS_OD % 256) VCNL_COMMAND = 8 := by
    simp only [setReg, if_true]; rfl
  have hp := poll_regfile_never_ready (setReg s VCNL_COMMAND (VCNL_PS_OD % 256)) h8 20 0
    [Event.lock, Event.read VCNL_COMMAND ((s VCNL_COMMAND : Nat) : Int),
      Event.write VCNL_COMMAND (VCNL_PS_OD % 256) 0]
  have hout : vcnl3020_measure_proximity regfile (World.init s) val
      = measure_fail (- EIO) val (poll_ready regfile 20 0
          ⟨setReg s VCNL_COMMAND (VCNL_PS_OD % 256),
            [Event.lock, Event.read VCNL_COMMAND ((s VCNL_COMMAND : Nat) : Int),
              Event.write VCNL_COMMAND (VCNL_PS_OD % 256) 0]⟩).w := by
    simp only [vcnl3020_measure_proximity, World.init, mutex_lock, i2c_smbus_read_byte_data,
      i2c_smbus_write_byte_data, List.nil_append, List.cons_append]
    simp only [regfile] at hp ⊢
    simp [hn, hp.1, hp.2.1]
  rw [hout]
  refine ⟨rfl, ?_, ?_⟩
  · simp only [measure_fail, mutex_unlock, hp.2.2]
    exact h8
  · intro c hc
    simp only [measure_fail, mutex_unlock, hp.2.2, setReg, if_neg hc]

theorem lockFree_nil : lockFree [] := by
  intro e he; simp at he

theorem lockFree_append {a b : List Event} (ha : lockFree a) (hb : lockFree b) :
    lockFree (a ++ b) := by
  intro e he
  rcases List.mem_append.mp he with h | h
  · exact ha e h
  · exact hb e h

theorem lockFree_read (c : Nat) (r : Int) : lockFree [Event.read c r] := by
  intro e he; simp at he; subst he; simp

theorem lockFree_write (c v : Nat) (r : Int) : lockFree [Event.write c v r] := by
  intro e he; simp at he; subst he; simp

theorem lockFree_polls (pe : List Event) (h : ∀ e ∈ pe, isPoll e) : lockFree pe := by
  intro e he
  rcases h e he with ⟨r, rfl⟩ | rfl <;> simp

theorem measure_trace_bracketed {σ : Type} (B : Bus σ) (s : σ) (val : Int) :
    ∃ body, (vcnl3020_measure_proximity B (World.init s) val).w.trace
        = Event.lock :: body ++ [Event.unlock] ∧ lockFree body := by
  generalize hout : vcnl3020_measure_proximity B (World.init s) val = out
  simp only [vcnl3020_measure_proximity] at hout
  set r1 := i2c_smbus_read_byte_data B (mutex_lock (World.init s)) VCNL_COMMAND with hr1
  set r2 := i2c_smbus_write_byte_data B r1.2 VCNL_COMMAND VCNL_PS_OD with hr2
  set p := poll_ready B 20 r2.1 r2.2 with hp
  set r3 := i2c_smbus_read_byte_data B p.w VCNL_PS_RESULT_HI with hr3
  set r4 := i2c_smbus_read_byte_data B r3.2 VCNL_PS_RESULT_LO with hr4
  set r5 := i2c_smbus_write_byte_data B r4.2 VCNL_COMMAND (to_u32 r1.1) with hr5
  obtain ⟨pe, hpe, hall⟩ := poll_ready_trace B 20 r2.1 r2.2
  have hpe2 : p.w.trace = r2.2.trace ++ pe := hpe
  have t1 : r1.2.trace = Event.lock :: [Event.read VCNL_COMMAND r1.1] := rfl
  have t2 : r2.2.trace = Event.lock :: ([Event.read VCNL_COMMAND r1.1]
      ++ [Event.write VCNL_COMMAND (VCNL_PS_OD % 256) r2.1]) := by
    rw [show r2.2.trace = r1.2.trace ++ [Event.write VCNL_COMMAND (VCNL_PS_OD % 256) r2.1]
      from rfl, t1]; rfl
  have tp : p.w.trace = Event.lock :: ([Event.read VCNL_COMMAND r1.1]
      ++ [Event.write VCNL_COMMAND (VCNL_PS_OD % 256) r2.1] ++ pe) := by
    rw [hpe2, t2]; simp
  have t3 : r3.2.trace = Event.lock :: ([Event.read VCNL_COMMAND r1.1]
      ++ [Event.write VCNL_COMMAND (VCNL_PS_OD % 256) r2.1] ++ pe
      ++ [Event.read VCNL_PS_RESULT_HI r3.1]) := by
    rw [show r3.2.trace = p.w.trace ++ [Event.read VCNL_PS_RESULT_HI r3.1] from rfl, tp]; simp
  have t4 : r4.2.trace = Event.lock :: ([Event.read VCNL_COMMAND r1.1]
      ++ [Event.write VCNL_COMMAND (VCNL_PS_OD % 256) r2.1] ++ pe
      ++ [Event.read VCNL_PS_RESULT_HI r3.1] ++ [Event.read VCNL_PS_RESULT_LO r4.1]) := by
    rw [show r4.2.trace = r3.2.trace ++ [Event.read VCNL_PS_RESULT_LO r4.1] from rfl, t3]; simp
  have t5 : r5.2.trace = Event.lock :: ([Event.read VCNL_COMMAND r1.1]
      ++ [Event.write VCNL_COMMAND (VCNL_PS_OD % 256) r2.1] ++ pe
      ++ [Event.read VCNL_PS_RESULT_HI r3.1] ++ [Event.read VCNL_PS_RESULT_LO r4.1]
      ++ [Event.write VCNL_COMMAND (to_u32 r1.1 % 256) r5.1]) := by
    rw [show r5.2.trace = r4.2.trace ++ [Event.write VCNL_COMMAND (to_u32 r1.1 % 256) r5.1]
      from rfl, t4]; simp
  have l1 := lockFree_read VCNL_COMMAND r1.1
  have l2 := lockFree_append l1 (lockFree_write VCNL_COMMAND (VCNL_PS_OD % 256) r2.1)
  have lp := lockFree_append l2 (lockFree_polls pe hall)
  have l3 := lockFree_append lp (lockFree_read VCNL_PS_RESULT_HI r3.1)
  have l4 := lockFree_append l3 (lockFree_read VCNL_PS_RESULT_LO r4.1)
  have l5 := lockFree_append l4 (lockFree_write VCNL_COMMAND (to_u32 r1.1 % 256) r5.1)
  clear_value r1 r2 p r3 r4 r5
  split_ifs at hout with c1 c2 c3 c4 c5 c6 c7 <;> subst hout
  · exact ⟨_, by simp only [measure_fail, mutex_unlock, t1], l1⟩
  · exact ⟨_, by simp only [measure_fail, mutex_unlock, t2], l2⟩
  · exact ⟨_, by simp only [measure_fail, mutex_unlock, tp], lp⟩
  · exact ⟨_, by simp only [measure_fail, mutex_unlock, tp], lp⟩
  · exact ⟨_, by simp only [measure_fail, mutex_unlock, t3], l3⟩
  · exact ⟨_, by simp only [measure_fail, mutex_unlock, t4], l4⟩
  · exact ⟨_, by simp only [measure_fail, mutex_unlock, t5], l5⟩
  · exact ⟨_, by simp only [mutex_unlock, t5], l5⟩

/-- C15: for every bus and chip state, the event trace of
`vcnl3020_measure_proximity`, of `vcnl3020_intrusion` and of
`vcnl3020_clear_interrupts` is one lock, then events that are all bus
transactions or sleeps, then one unlock: on every exit path the mutex is
taken once, released once, at the very end, and never in between. -/
theorem lock_brackets_every_call {σ : Type} (B : Bus σ) (s : σ) (val : Int) :
    (∃ body, (vcnl3020_measure_proximity B (World.init s) val).w.trace
        = Event.lock :: body ++ [Event.unlock] ∧ lockFree body)
    ∧ (∃ body, (vcnl3020_intrusion B (World.init s)).2.trace
        = Event.lock :: body ++ [Event.unlock] ∧ lockFree body)
    ∧ (∃ body, (vcnl3020_clear_interrupts B (World.init s)).2.trace
        = Event.lock :: body ++ [Event.unlock] ∧ lockFree body) :=
  ⟨measure_trace_bracketed B s val,
    ⟨[Event.read VCNL_ISR (B.read s VCNL_ISR).1], rfl, lockFree_read _ _⟩,
    ⟨[Event.write VCNL_ISR ((INT_TH_HI ||| INT_TH_LOW ||| INT_PROX_READY) % 256)
        (B.write s VCNL_ISR ((INT_TH_HI ||| INT_TH_LOW ||| INT_PROX_READY) % 256)).1], rfl,
      lockFree_write _ _ _⟩⟩

theorem init_rc_zero {σ : Type} (B : Bus σ) (s : σ) (props : DeviceProps)
    (data : vcnl3020_data) (hrc : (vcnl3020_init B props data (World.init s)).rc = 0) :
    propsOk props ∧ (B.read s VCNL_PROD_REV).1 = (VCNL3020_PROD_ID : Int)
    ∧ ∃ rs rb, rs.length = 6 ∧ (∀ r ∈ rs, (0 : Int) ≤ r)
      ∧ (vcnl3020_init B props data (World.init s)).w.trace
          = Event.read VCNL_PROD_REV (VCNL3020_PROD_ID : Int)
              :: writeEvents (initWrites props) rs ++ [Event.read VCNL_COMMAND rb] := by
  rcases init_cases B s props data with ⟨_, h, _, _⟩ | ⟨_, _, h, _, _⟩
    | ⟨_, _, _, good, bad, _, _, hbad, h, _⟩
    | ⟨hp, hid, _, rs, rb, hlen, hall, _, htr⟩
  · exact absurd hrc h
  · rw [h] at hrc
    split_ifs at hrc with hneg
    · omega
    · exact absurd hrc (by decide)
  · rw [h] at hrc; omega
  · exact ⟨hp, hid, rs, rb, hlen, hall, htr⟩

theorem init_rc_zero_writes {σ : Type} (B : Bus σ) (s : σ) (props : DeviceProps)
    (data : vcnl3020_data) (hrc : (vcnl3020_init B props data (World.init s)).rc = 0) :
    writesOf (vcnl3020_init B props data (World.init s)).w.trace = initWrites props := by
  obtain ⟨_, _, rs, rb, hlen, _, htr⟩ := init_rc_zero B s props data hrc
  have hl6 : (initWrites props).length = 6 := rfl
  rw [htr]
  simp only [List.cons_append, writesOf, List.append_eq, writesOf_append,
    writesOf_writeEvents, List.append_nil, hlen]
  exact List.take_of_length_le (by rw [hl6])

theorem and_0xff_mod (n : Nat) : (n &&& 0xFF) % 256 = n &&& 0xFF :=
  Nat.mod_eq_of_lt (Nat.and_lt_two_pow n (by decide : 0xFF < 2 ^ 8))

theorem split_recombine (thr : Nat) (h : thr < 65536) :
    ((thr >>> 8) &&& 0xFF) <<< 8 ||| (thr &&& 0xFF) = thr := by
  have h1 : thr &&& 0xFF = thr % 2 ^ 8 := Nat.and_pow_two_sub_one_eq_mod thr 8
  have h2 : (thr >>> 8) &&& 0xFF = (thr >>> 8) % 2 ^ 8 := Nat.and_pow_two_sub_one_eq_mod _ 8
  have h3 : thr >>> 8 = thr / 2 ^ 8 := Nat.shiftRight_eq_div_pow thr 8
  rw [h1, h2, h3, Nat.shiftLeft_eq, Nat.mul_comm,
    ← Nat.mul_add_lt_is_or (Nat.mod_lt thr (by decide)) _]
  omega

/-- C14: when `vcnl3020_init` returns 0 for a configuration whose
proximity-rate and led-current are bytes and whose threshold is a 16 bit
value, the register writes of the call are, in this order, proximity-rate to
0x82, led-current to 0x83, `threshold & 0xFF` to 0x8b, `(threshold >> 8) & 0xFF`
to 0x8a, one byte to PS_ICR, and 0x03 to COMMAND (bits 0 and 1 set, bit 3
clear); the two threshold bytes recombine as `(hi << 8) | lo` to the
threshold. -/
theorem init_success_writes_config {σ : Type} (B : Bus σ) (s : σ) (data : vcnl3020_data)
    (rate cur thr cnt : Nat) (hrate : rate < 256) (hcur : cur < 256) (hthr : thr < 65536)
    (hrc : (vcnl3020_init B (config rate cur thr cnt) data (World.init s)).rc = 0) :
    (∃ icr, writesOf (vcnl3020_init B (config rate cur thr cnt) data (World.init s)).w.trace
      = [(VCNL_PROXIMITY_RATE, rate), (VCNL_LED_CURRENT, cur),
         (VCNL_PS_LO_THR_LO, thr &&& 0xFF), (VCNL_PS_LO_THR_HI, (thr >>> 8) &&& 0xFF),
         (VCNL_PS_ICR, icr), (VCNL_COMMAND, 0x03)])
    ∧ ((thr >>> 8) &&& 0xFF) <<< 8 ||| (thr &&& 0xFF) = thr
    ∧ (VCNL_PS_EN ||| VCNL_PS_SELFTIMED_EN) &&& (VCNL_PS_OD ^^^ 0xff) = 0x03
    ∧ Nat.testBit 0x03 0 = true ∧ Nat.testBit 0x03 1 = true ∧ Nat.testBit 0x03 3 = false := by
  refine ⟨⟨(((cnt % 2 ^ 32) <<< ICR_COUNT_EXCEED) % 2 ^ 32 ||| ICR_THRES_EN) % 256, ?_⟩,
    split_recombine thr hthr, by decide, by decide, by decide, by decide⟩
  rw [init_rc_zero_writes B s _ data hrc]
  have e1 : rate % 2 ^ 32 % 256 = rate := by omega
  have e2 : cur % 2 ^ 32 % 256 = cur := by omega
  have e3 : thr % 2 ^ 32 = thr := by omega
  simp only [initWrites, config, e1, e2, e3, and_0xff_mod]
  rfl

/-- Witness of C14: rate 1, current 2, threshold 0x1234 on a bus that accepts
everything. -/
theorem init_success_writes_config_witness :
    (vcnl3020_init (scripted (scriptOf [0x21] 0)) (config 1 2 0x1234 1) ⟨0, false⟩
        (World.init 0)).rc = 0
    ∧ (0x12 <<< 8 ||| 0x34 : Nat) = 0x1234
    ∧ ∃ icr, writesOf (vcnl3020_init (scripted (scriptOf [0x21] 0)) (config 1 2 0x1234 1)
        ⟨0, false⟩ (World.init 0)).w.trace
      = [(VCNL_PROXIMITY_RATE, 1), (VCNL_LED_CURRENT, 2), (VCNL_PS_LO_THR_LO, 0x34),
         (VCNL_PS_LO_THR_HI, 0x12), (VCNL_PS_ICR, icr), (VCNL_COMMAND, 0x03)] :=
  ⟨by decide, by decide,
    (init_success_writes_config (scripted (scriptOf [0x21] 0)) 0 ⟨0, false⟩ 1 2 0x1234 1
      (by decide) (by decide) (by decide) (by decide)).1⟩

theorem mem_writeEvents : ∀ (ws : List (Nat × Nat)) (rs : List Int) (e : Event),
    e ∈ writeEvents ws rs → ∃ c v r, e = Event.write c v r ∧ r ∈ rs
  | [], rs, e, h => by cases rs <;> simp [writeEvents] at h
  | (c, v) :: ws, [], e, h => by simp [writeEvents] at h
  | (c, v) :: ws, r :: rs, e, h => by
    simp only [writeEvents, List.mem_cons] at h
    rcases h with rfl | h
    · exact ⟨c, v, r, rfl, by simp⟩
    · obtain ⟨c1, v1, r1, he, hr⟩ := mem_writeEvents ws rs e h
      exact ⟨c1, v1, r1, he, by simp [hr]⟩

/-- Counterexample of C16: the identity read and the six writes succeed, the
read-back of COMMAND fails with -5; a bus transaction of `vcnl3020_init` has
failed and the function returns 0. -/
theorem init_swallows_failed_read_back :
    ¬ ((∃ e ∈ (vcnl3020_init (scripted initScriptReadBackFails) (config 1 2 0x1234 1)
          ⟨0, false⟩ (World.init 0)).w.trace, failedTransaction e = true) →
        (vcnl3020_init (scripted initScriptReadBackFails) (config 1 2 0x1234 1)
          ⟨0, false⟩ (World.init 0)).rc < 0) := by
  intro h
  have h1 := h ⟨Event.read VCNL_COMMAND (-5), by decide, by decide⟩
  revert h1
  decide

/-- C16, amended: whatever the bus answers, when a bus transaction of
`vcnl3020_init` other than a read of COMMAND fails (the identity read or one
of the six configuration writes), the function returns a negative code; and
once the read-back of COMMAND has been issued the function returns 0,
whatever that read answers. -/
theorem init_reports_failed_identity_or_write {σ : Type} (B : Bus σ) (s : σ)
    (props : DeviceProps) (data : vcnl3020_data) :
    (∀ e ∈ (vcnl3020_init B props data (World.init s)).w.trace,
        failedTransaction e = true → (∀ r, e ≠ Event.read VCNL_COMMAND r) →
        (vcnl3020_init B props data (World.init s)).rc < 0)
    ∧ (∀ r, Event.read VCNL_COMMAND r ∈ (vcnl3020_init B props data (World.init s)).w.trace →
        (vcnl3020_init B props data (World.init s)).rc = 0) := by
  rcases init_cases B s props data with ⟨_, _, _, htr⟩ | ⟨_, _, hrc, _, htr⟩
    | ⟨_, _, _, good, bad, _, _, hbad, hrc, htr⟩
    | ⟨_, _, _, rs, rb, _, hall, hrc, htr⟩
  · rw [htr]
    exact ⟨by intro e he; simp at he, by intro r hr; simp at hr⟩
  · have hneg : (vcnl3020_init B props data (World.init s)).rc < 0 := by
      rw [hrc]; split_ifs with h
      · exact h
      · decide
    rw [htr]
    refine ⟨fun _ _ _ _ => hneg, ?_⟩
    intro r hr
    simp [VCNL_PROD_REV, VCNL_COMMAND] at hr
  · refine ⟨fun _ _ _ _ => by rw [hrc]; exact hbad, ?_⟩
    intro r hr
    rw [htr] at hr
    simp only [List.mem_cons] at hr
    rcases hr with hr | hr
    · simp [VCNL_PROD_REV, VCNL_COMMAND] at hr
    · obtain ⟨c, v, r1, he, _⟩ := mem_writeEvents _ _ _ hr
      simp at he
  · refine ⟨?_, fun _ _ => hrc⟩
    intro e he hf hne
    rw [htr] at he
    simp only [List.cons_append, List.mem_cons, List.mem_append, List.mem_singleton] at he
    rcases he with rfl | he | he
    · exact absurd hf (by decide)
    · obtain ⟨c, v, r1, rfl, hr1⟩ := mem_writeEvents _ _ _ he
      have := hall r1 hr1
      simp only [failedTransaction, decide_eq_true_eq] at hf
      omega
    · have he2 : e = Event.read VCNL_COMMAND rb := by simpa using he
      exact absurd he2 (hne rb)

/-- Witness of the amended C16: the third write fails with -5 and -5 is
returned. -/
theorem init_reports_failed_identity_or_write_witness :
    Event.write VCNL_PS_LO_THR_LO 0x34 (-5)
        ∈ (vcnl3020_init (scripted initScriptThirdWriteFails) (config 1 2 0x1234 1)
            ⟨0, false⟩ (World.init 0)).w.trace
    ∧ (vcnl3020_init (scripted initScriptThirdWriteFails) (config 1 2 0x1234 1)
        ⟨0, false⟩ (World.init 0)).rc < 0 :=
  ⟨by decide,
    (init_reports_failed_identity_or_write (scripted initScriptThirdWriteFails) 0
      (config 1 2 0x1234 1) ⟨0, false⟩).1 (Event.write VCNL_PS_LO_THR_LO 0x34 (-5))
      (by decide) (by decide) (by intro r; simp)⟩

theorem caller_cases (a b c : Caller) (hab : a ≠ b) : c = a ∨ c = b := by
  cases a <;> cases b <;> cases c <;> simp at hab ⊢

theorem eventsOf_nil_other (a b : Caller) (hab : a ≠ b) :
    ∀ g : List (Caller × Event), eventsOf a g = [] → g = callBlock b (eventsOf b g) := by
  intro g
  induction g with
  | nil => intro _; rfl
  | cons x xs ih =>
    obtain ⟨c, e⟩ := x
    intro h
    rcases caller_cases a b c hab with rfl | rfl
    · simp [eventsOf] at h
    · have hne : ¬ c = a := fun h1 => hab h1.symm
      simp only [eventsOf, if_neg hne] at h
      simp only [eventsOf, if_true, callBlock, List.map_cons]
      rw [← callBlock, ← ih h]

theorem holder_finishes_first (a b : Caller) (hab : a ≠ b) :
    ∀ (g : List (Caller × Event)) (body rest : List Event),
      mutexAllows (some a) g = true →
      eventsOf a g = body ++ [Event.unlock] → lockFree body →
      eventsOf b g = Event.lock :: rest →
      g = callBlock a (body ++ [Event.unlock]) ++ callBlock b (Event.lock :: rest) := by
  intro g
  induction g with
  | nil => intro body rest _ h; simp [eventsOf] at h
  | cons x xs ih =>
    obtain ⟨c, e⟩ := x
    intro body rest hm ha hfree hb
    have hba : ¬ b = a := fun h1 => hab h1.symm
    rcases caller_cases a b c hab with rfl | rfl
    · simp only [eventsOf, if_true] at ha
      simp only [eventsOf, if_neg hab] at hb
      cases body with
      | nil =>
        simp only [List.nil_append, List.cons.injEq] at ha
        obtain ⟨rfl, ha2⟩ := ha
        have := eventsOf_nil_other c b hab xs ha2
        rw [hb] at this
        rw [this]
        simp [callBlock]
      | cons e1 body1 =>
        simp only [List.cons_append, List.cons.injEq] at ha
        obtain ⟨rfl, ha2⟩ := ha
        have he := hfree e (by simp)
        have hfree1 : lockFree body1 := fun x hx => hfree x (by simp [hx])
        have hm1 : mutexAllows (some c) xs = true := by
          cases e <;> simp_all [mutexAllows]
        rw [ih body1 rest hm1 ha2 hfree1 hb]
        simp [callBlock]
    · simp only [eventsOf, if_true] at hb
      simp only [List.cons.injEq] at hb
      obtain ⟨rfl, _⟩ := hb
      simp [mutexAllows] at hm

theorem two_bracketed_calls_are_blocks (a b : Caller) (hab : a ≠ b)
    (g : List (Caller × Event)) (body1 body2 : List Event)
    (hm : mutexAllows none g = true)
    (ha : eventsOf a g = Event.lock :: body1 ++ [Event.unlock]) (hf1 : lockFree body1)
    (hb : eventsOf b g = Event.lock :: body2 ++ [Event.unlock]) (hf2 : lockFree body2) :
    g = callBlock a (Event.lock :: body1 ++ [Event.unlock])
          ++ callBlock b (Event.lock :: body2 ++ [Event.unlock])
    ∨ g = callBlock b (Event.lock :: body2 ++ [Event.unlock])
          ++ callBlock a (Event.lock :: body1 ++ [Event.unlock]) := by
  cases g with
  | nil => simp [eventsOf] at ha
  | cons x xs =>
    obtain ⟨c, e⟩ := x
    have hba : b ≠ a := fun h1 => hab h1.symm
    rcases caller_cases a b c hab with rfl | rfl
    · left
      simp only [eventsOf, if_true, List.cons_append, List.cons.injEq] at ha
      simp only [eventsOf, if_neg hab] at hb
      obtain ⟨rfl, ha2⟩ := ha
      have hm1 : mutexAllows (some c) xs = true := by simpa [mutexAllows] using hm
      rw [holder_finishes_first c b hab xs body1 (body2 ++ [Event.unlock]) hm1 ha2 hf1 hb]
      simp [callBlock]
    · right
      simp only [eventsOf, if_true, List.cons_append, List.cons.injEq] at hb
      simp only [eventsOf, if_neg hba] at ha
      obtain ⟨rfl, hb2⟩ := hb
      have hm1 : mutexAllows (some c) xs = true := by simpa [mutexAllows] using hm
      rw [holder_finishes_first c a hba xs body2 (body1 ++ [Event.unlock]) hm1 hb2 hf2 ha]
      simp [callBlock]

/-- C12: take any run of two callers, one in `vcnl3020_measure_proximity` and
one in `vcnl3020_clear_interrupts`, in which each caller's events are those of
its call (on a bus of any kind, since a caller sees of the other only the
answers of the bus) and the mutex is respected.  Then the run is one whole
call followed by the other whole call: no event, so no register transaction,
of one call lies between the first and the last transaction of the other. -/
theorem concurrent_calls_are_blocks {σ τ : Type} (B1 : Bus σ) (s1 : σ) (val : Int)
    (B2 : Bus τ) (s2 : τ) (g : List (Caller × Event))
    (hmutex : mutexAllows none g = true)
    (hmeasure : eventsOf Caller.measure g
      = (vcnl3020_measure_proximity B1 (World.init s1) val).w.trace)
    (hclear : eventsOf Caller.clear g = (vcnl3020_clear_interrupts B2 (World.init s2)).2.trace) :
    (g = callBlock Caller.measure (vcnl3020_measure_proximity B1 (World.init s1) val).w.trace
          ++ callBlock Caller.clear (vcnl3020_clear_interrupts B2 (World.init s2)).2.trace
      ∨ g = callBlock Caller.clear (vcnl3020_clear_interrupts B2 (World.init s2)).2.trace
          ++ callBlock Caller.measure
              (vcnl3020_measure_proximity B1 (World.init s1) val).w.trace)
    ∧ (transactionsOf (g.map Prod.snd)
        = transactionsOf (vcnl3020_measure_proximity B1 (World.init s1) val).w.trace
          ++ transactionsOf (vcnl3020_clear_interrupts B2 (World.init s2)).2.trace
      ∨ transactionsOf (g.map Prod.snd)
        = transactionsOf (vcnl3020_clear_interrupts B2 (World.init s2)).2.trace
          ++ transactionsOf (vcnl3020_measure_proximity B1 (World.init s1) val).w.trace) := by
  obtain ⟨body1, h1, hf1⟩ := measure_trace_bracketed B1 s1 val
  have h2 : (vcnl3020_clear_interrupts B2 (World.init s2)).2.trace
      = Event.lock :: [Event.write VCNL_ISR ((INT_TH_HI ||| INT_TH_LOW ||| INT_PROX_READY) % 256)
          (B2.write s2 VCNL_ISR ((INT_TH_HI ||| INT_TH_LOW ||| INT_PROX_READY) % 256)).1]
        ++ [Event.unlock] := rfl
  have hf2 := lockFree_write VCNL_ISR ((INT_TH_HI ||| INT_TH_LOW ||| INT_PROX_READY) % 256)
    (B2.write s2 VCNL_ISR ((INT_TH_HI ||| INT_TH_LOW ||| INT_PROX_READY) % 256)).1
  have hsnd : ∀ (c : Caller) (t : List Event), (callBlock c t).map Prod.snd = t := by
    intro c t; simp [callBlock, Function.comp_def]
  have key := two_bracketed_calls_are_blocks Caller.measure Caller.clear (by decide) g body1 _
    hmutex (by rw [hmeasure, h1]) hf1 (by rw [hclear, h2]) hf2
  rw [← h1, ← h2] at key
  rcases key with k | k
  · exact ⟨Or.inl k, Or.inl (by rw [k, List.map_append, hsnd, hsnd, transactionsOf_append])⟩
  · exact ⟨Or.inr k, Or.inr (by rw [k, List.map_append, hsnd, hsnd, transactionsOf_append])⟩

/-- Witness of C12: the run in which the clear call comes first. -/
theorem concurrent_calls_are_blocks_witness :
    mutexAllows none clearThenMeasure = true
    ∧ (transactionsOf (clearThenMeasure.map Prod.snd)
        = transactionsOf (vcnl3020_measure_proximity (scripted measureScript) (World.init 0)
            77).w.trace
          ++ transactionsOf (vcnl3020_clear_interrupts (scripted (fun _ => 0))
            (World.init 0)).2.trace
      ∨ transactionsOf (clearThenMeasure.map Prod.snd)
        = transactionsOf (vcnl3020_clear_interrupts (scripted (fun _ => 0))
            (World.init 0)).2.trace
          ++ transactionsOf (vcnl3020_measure_proximity (scripted measureScript) (World.init 0)
            77).w.trace) :=
  ⟨by decide,
    (concurrent_calls_are_blocks (scripted measureScript) 0 77 (scripted (fun _ => 0)) 0
      clearThenMeasure (by decide) (by decide) (by decide)).2⟩

end Vcnl3020
